import Mathlib

/-!
Verification development for the AoXCloud object-store engine.

The definitions below are a shallow embedding of the Rust sources, chiefly
`src/infrastructure/repositories/file_fs_repository.rs` (the filesystem
implementation of the file repository) and
`src/infrastructure/services/id_mapping_optimizer.rs` (the caching layer in
front of the id-mapping store).  Stateful code is embedded as explicit state
passing over a `Store` record; fallible code returns `Except RepoError`.
Collaborators whose source files are not part of the checked tree
(`StoragePath`, the `File` entity, `IdMappingService`, `AppConfig`'s resource
helpers, the storage mediator) are modelled from the specification and marked
as such in their doc comments.
-/

namespace AoXCloud

/-- Decimal digit character for `d < 10`, i.e. the character `'0' + d`. -/
def digitChar (d : Nat) : Char := Char.ofNat (48 + d)

/-- Little-endian list of decimal digit characters of `n`; `fuel` bounds the
recursion depth (`fuel = n` is always enough since `n / 10 < n`). -/
def decDigitsRev : Nat → Nat → List Char
  | 0, _ => []
  | _ + 1, 0 => []
  | fuel + 1, n + 1 => digitChar ((n + 1) % 10) :: decDigitsRev fuel ((n + 1) / 10)

/-- Decimal rendering of a natural number, as produced by Rust's
`format!("{}", n)` for unsigned integers. -/
def natDecimal (n : Nat) : String :=
  if n = 0 then "0" else ⟨(decDigitsRev n n).reverse⟩

/-- Decode a little-endian decimal digit-character list back to a number. -/
def ofDecDigitsRev : List Char → Nat
  | [] => 0
  | c :: cs => (c.toNat - 48) + 10 * ofDecDigitsRev cs

theorem digitChar_toNat {d : Nat} (h : d < 10) : (digitChar d).toNat = 48 + d := by
  interval_cases d <;> rfl

theorem ofDecDigitsRev_decDigitsRev :
    ∀ fuel n, n ≤ fuel → ofDecDigitsRev (decDigitsRev fuel n) = n := by
  intro fuel
  induction fuel with
  | zero => intro n hn; interval_cases n; rfl
  | succ f ih =>
    intro n hn
    match n with
    | 0 => rfl
    | m + 1 =>
      have hdiv : (m + 1) / 10 ≤ f := by
        have h1 : (m + 1) / 10 < m + 1 := Nat.div_lt_self (Nat.succ_pos m) (by norm_num)
        omega
      simp only [decDigitsRev, ofDecDigitsRev, ih _ hdiv,
        digitChar_toNat (Nat.mod_lt _ (by norm_num : (0:Nat) < 10))]
      omega

/-- `natDecimal` decodes back to its argument, hence it is injective. -/
theorem natDecimal_decode (n : Nat) : ofDecDigitsRev (natDecimal n).data.reverse = n := by
  unfold natDecimal
  by_cases h : n = 0
  · subst h; rfl
  · simp only [h, if_false]
    rw [List.reverse_reverse]
    exact ofDecDigitsRev_decDigitsRev n n le_rfl

theorem natDecimal_injective : Function.Injective natDecimal := by
  intro m n h
  have := natDecimal_decode m
  rw [h, natDecimal_decode] at this
  omega

/-- Split a character list at its LAST dot: returns `(before, dot-and-after)`,
or `none` when no dot occurs.  Mirrors `original_name.rfind('.')` in
`save_file_from_bytes` (file_fs_repository.rs lines 873-879). -/
def splitLastDot : List Char → Option (List Char × List Char)
  | [] => none
  | c :: cs =>
    match splitLastDot cs with
    | some (a, b) => some (c :: a, b)
    | none => if c = '.' then some ([], c :: cs) else none

/-- `file_stem` and `extension` of a file name: the slice before the last dot
and the slice from the last dot on (the whole name and `""` when the name has
no dot), exactly as computed in `save_file_from_bytes`. -/
def splitExt (s : String) : String × String :=
  match splitLastDot s.data with
  | some (a, b) => (⟨a⟩, ⟨b⟩)
  | none => (s, "")

/-- `format!("{}_{}{}", file_stem, counter, extension)`: the collision-suffixed
name tried by `save_file_from_bytes` for a given counter value. -/
def mkSuffixName (name : String) (counter : Nat) : String :=
  (splitExt name).1 ++ "_" ++ natDecimal counter ++ (splitExt name).2

/-- The sequence of names `save` tries: the requested name first, then the
suffixed names with counters 1, 2, …. -/
def candidateName (name : String) : Nat → String
  | 0 => name
  | n + 1 => mkSuffixName name (n + 1)

theorem splitLastDot_concat :
    ∀ {l a b : List Char}, splitLastDot l = some (a, b) → a ++ b = l := by
  intro l
  induction l with
  | nil => intro a b h; simp [splitLastDot] at h
  | cons c cs ih =>
    intro a b h
    simp only [splitLastDot] at h
    cases hrec : splitLastDot cs with
    | some p =>
      obtain ⟨a', b'⟩ := p
      rw [hrec] at h
      injection h with h
      injection h with h1 h2
      subst h1; subst h2
      simpa using ih hrec
    | none =>
      rw [hrec] at h
      by_cases hc : c = '.'
      · simp only [hc, if_pos rfl] at h
        injection h with h
        injection h with h1 h2
        subst h1; subst h2
        simp [hc]
      · simp [hc] at h

theorem splitExt_concat (s : String) :
    (splitExt s).1.data ++ (splitExt s).2.data = s.data := by
  unfold splitExt
  cases h : splitLastDot s.data with
  | some p =>
    cases p with
    | mk a b => simpa using splitLastDot_concat h
  | none => simp

theorem data_eq_of_eq {a b : String} (h : a = b) : a.data = b.data := by rw [h]

theorem string_eq_of_data_eq {a b : String} (h : a.data = b.data) : a = b := by
  cases a; cases b; exact congrArg String.mk h

theorem mkSuffixName_injective (name : String) {i j : Nat}
    (h : mkSuffixName name i = mkSuffixName name j) : i = j := by
  unfold mkSuffixName at h
  have hd := data_eq_of_eq h
  simp only [String.data_append] at hd
  have h1 := List.append_cancel_right hd
  have h2 := List.append_cancel_left h1
  exact natDecimal_injective (string_eq_of_data_eq h2)

theorem mkSuffixName_ne_name (name : String) (n : Nat) :
    mkSuffixName name n ≠ name := by
  intro h
  have hd := data_eq_of_eq h
  have hlen : (mkSuffixName name n).data.length = name.data.length := by rw [hd]
  have hsplit : (splitExt name).1.data.length + (splitExt name).2.data.length
      = name.data.length := by
    have := congrArg List.length (splitExt_concat name)
    simpa using this
  unfold mkSuffixName at hlen
  simp only [String.data_append, List.length_append, List.length_cons,
    List.length_nil] at hlen
  omega

theorem candidateName_injective (name : String) {i j : Nat}
    (h : candidateName name i = candidateName name j) : i = j := by
  match i, j with
  | 0, 0 => rfl
  | 0, n + 1 => exact absurd h.symm (mkSuffixName_ne_name name (n + 1))
  | m + 1, 0 => exact absurd h (mkSuffixName_ne_name name (m + 1))
  | m + 1, n + 1 => exact mkSuffixName_injective name h

/-- Modelled from the spec: `StoragePath` (§3) is an ordered sequence of
non-empty name segments; the root is the empty sequence.  The
`path_service.rs` source is not part of the checked tree. -/
abbrev StoragePath := List String

/-- Modelled from the spec: `to_string` renders the segments slash-separated. -/
def storagePathString (p : StoragePath) : String := String.intercalate "/" p

/-- Modelled from the spec: the error taxonomy of §7 together with the
variants constructed in `file_fs_repository.rs` (`NotFound`, `AlreadyExists`,
`InvalidPath`, `Timeout`, `IoError`, `Other`); the spec additionally names a
`TooLarge` kind, included here so that claims about it can be stated.  The
`file_repository.rs` source is not part of the checked tree. -/
inductive RepoError where
  | notFound (msg : String)
  | alreadyExists (msg : String)
  | invalidPath (msg : String)
  | tooLarge (msg : String)
  | timeout (msg : String)
  | ioError
  | other (msg : String)
deriving DecidableEq

/-- Modelled from the spec: the immutable `FileObject` descriptor (§3):
`{id, name, storage_path, size_bytes, mime_type, folder_id?, created_at,
modified_at}`.  The `file.rs` entity source is not part of the checked tree. -/
structure File where
  id : String
  name : String
  storagePath : StoragePath
  size : Nat
  mimeType : String
  folderId : Option String
  createdAt : Nat
  modifiedAt : Nat
deriving DecidableEq

/-- A regular file of the modelled filesystem: its storage path, its bytes and
its creation/modification timestamps (Unix seconds). -/
structure FsFile where
  path : StoragePath
  content : List Nat
  ctime : Nat
  mtime : Nat
deriving DecidableEq

/-- Modelled from the spec: the resource options of §6 that the repository
consults (`large_file_threshold_mb`, `parallel_threshold_mb`,
`max_in_memory_file_size_mb`).  `common/config.rs` is not part of the checked
tree. -/
structure ResourceConfig where
  largeFileThresholdMB : Nat
  parallelThresholdMB : Nat
  maxInMemoryFileSizeMB : Nat
deriving DecidableEq

def megabyte : Nat := 1024 * 1024

/-- Modelled from the spec: a file is "large" from `large_file_threshold_mb`
on (§4.7 step 4: "large (≥ large_threshold)"). -/
def ResourceConfig.isLargeFile (c : ResourceConfig) (size : Nat) : Bool :=
  c.largeFileThresholdMB * megabyte ≤ size

/-- Modelled from the spec: the parallel path is taken from
`parallel_threshold_mb` on (§4.7 step 4: "very-large (≥ parallel_threshold)"). -/
def ResourceConfig.needsParallelProcessing (c : ResourceConfig) (size : Nat) : Bool :=
  c.parallelThresholdMB * megabyte ≤ size

/-- Modelled from the spec: `read_all` admits sizes up to and including
`max_in_memory_file_size_mb` (§8: "Read file at exactly
`max_in_memory_file_size_mb`: allowed; one byte above: TooLarge"). -/
def ResourceConfig.canLoadInMemory (c : ResourceConfig) (size : Nat) : Bool :=
  size ≤ c.maxInMemoryFileSizeMB * megabyte

/-- The full state threaded through the repository operations: the filesystem
under the storage root, the directories created so far, the in-memory and the
persisted id↦path mapping document, the fresh-uuid supply, a clock, the set of
paths whose OS-level removal fails (the I/O fault model), and the storage
mediator's folder-id table. -/
structure Store where
  fs : List FsFile
  dirs : List StoragePath
  mapping : List (String × StoragePath)
  persisted : List (String × StoragePath)
  fresh : Nat
  now : Nat
  failRemove : List StoragePath
  mediator : List (String × StoragePath)
deriving DecidableEq

/-- Association-list lookup by key. -/
def lookupKey {β : Type} : List (String × β) → String → Option β
  | [], _ => none
  | (k, v) :: rest, key => if k = key then some v else lookupKey rest key

/-- Association-list lookup by value (the reverse index of the mapping). -/
def lookupVal {β : Type} [DecidableEq β] : List (String × β) → β → Option String
  | [], _ => none
  | (k, v) :: rest, val => if v = val then some k else lookupVal rest val

/-- Replace the value stored under a key, or append the pair when absent. -/
def setKey {β : Type} : List (String × β) → String → β → List (String × β)
  | [], k, v => [(k, v)]
  | (k', v') :: rest, k, v =>
    if k' = k then (k, v) :: rest else (k', v') :: setKey rest k v

/-- Drop the entry stored under a key. -/
def removeKey {β : Type} : List (String × β) → String → List (String × β)
  | [], _ => []
  | (k', v') :: rest, k =>
    if k' = k then removeKey rest k else (k', v') :: removeKey rest k

/-- The regular file stored at a path, if any. -/
def fsGet : List FsFile → StoragePath → Option FsFile
  | [], _ => none
  | f :: rest, p => if f.path = p then some f else fsGet rest p

/-- Existence of a regular file at a path (`file_exists_at_storage_path`,
with the metadata cache modelled as coherent with the filesystem). -/
def fsExists (fs : List FsFile) (p : StoragePath) : Bool := (fsGet fs p).isSome

/-- Write `content` at `path`: replace the bytes (keeping the creation time)
when a file exists there, create the file otherwise. -/
def fsSet (fs : List FsFile) (p : StoragePath) (content : List Nat) (now : Nat) :
    List FsFile :=
  match fs with
  | [] => [⟨p, content, now, now⟩]
  | f :: rest =>
    if f.path = p then ⟨p, content, f.ctime, now⟩ :: rest
    else f :: fsSet rest p content now

/-- Remove the regular file at a path. -/
def fsRemove : List FsFile → StoragePath → List FsFile
  | [], _ => []
  | f :: rest, p => if f.path = p then fsRemove rest p else f :: fsRemove rest p

/-- Rename the regular file at `src` to `dst` (`rename_with_sync`). -/
def fsRename (fs : List FsFile) (src dst : StoragePath) : List FsFile :=
  match fsGet fs src with
  | none => fs
  | some f => fsSet (fsRemove fs src) dst f.content f.mtime

/-- A directory exists when it is the storage root or was created before. -/
def dirExists (st : Store) (p : StoragePath) : Bool := p = [] || p ∈ st.dirs

/-- Modelled from the spec: `ObjectId` allocation is a random UUIDv4 (§3);
randomness is embedded as an injective fresh-name supply indexed by the
store's `fresh` counter. -/
def freshId (n : Nat) : String := "uuid-" ++ natDecimal n

/-- Modelled from the spec: MIME sniffing by extension with the
`application/octet-stream` fallback (§4.7 step 6); the sniffing table lives in
an external crate and is abstracted to its fallback. -/
def mimeFromPath (_p : StoragePath) : String := "application/octet-stream"

/-- `IdMappingService::get_or_create_id` — modelled from the spec (§4.3):
return the existing id for this exact path, or allocate a fresh id and insert
both directions.  `id_mapping_service.rs` is not part of the checked tree. -/
def getOrCreateId (st : Store) (p : StoragePath) : String × Store :=
  match lookupVal st.mapping p with
  | some id => (id, st)
  | none =>
    (freshId st.fresh,
     { st with mapping := (freshId st.fresh, p) :: st.mapping, fresh := st.fresh + 1 })

/-- `IdMappingService::get_path_by_id` — modelled from the spec (§4.3). -/
def getPathById (st : Store) (id : String) : Except RepoError StoragePath :=
  match lookupKey st.mapping id with
  | some p => .ok p
  | none => .error (.notFound id)

/-- `IdMappingService::update_path` — modelled from the spec (§4.3):
`() | NotFound | AlreadyExists(new_path)`. -/
def updatePath (st : Store) (id : String) (newPath : StoragePath) :
    Except RepoError Store :=
  match lookupKey st.mapping id with
  | none => .error (.notFound id)
  | some _ =>
    match lookupVal st.mapping newPath with
    | some j => if j = id then .ok { st with mapping := setKey st.mapping id newPath }
                else .error (.alreadyExists (storagePathString newPath))
    | none => .ok { st with mapping := setKey st.mapping id newPath }

/-- `IdMappingService::remove_id` — modelled from the spec (§4.3). -/
def removeId (st : Store) (id : String) : Except RepoError Store :=
  match lookupKey st.mapping id with
  | none => .error (.notFound id)
  | some _ => .ok { st with mapping := removeKey st.mapping id }

/-- `IdMappingService::save_changes` — modelled from the spec (§4.3): persist
the in-memory document atomically. -/
def saveChanges (st : Store) : Store := { st with persisted := st.mapping }

/-- The `while exists { … }` collision loop of `save_file_from_bytes`
(file_fs_repository.rs lines 868-905): starting from `counter`, try
`"{stem}_{counter}{ext}"`, advance the counter while the candidate path is
occupied, and return the first free name.  `fuel` bounds the iteration count
(the Rust loop has no bound; every theorem below runs within fuel). -/
def resolveLoop (occ : StoragePath → Bool) (folder : StoragePath) (name : String) :
    Nat → Nat → Option String
  | _, 0 => none
  | counter, fuel + 1 =>
    let newName := mkSuffixName name counter
    if occ (folder ++ [newName]) then resolveLoop occ folder name (counter + 1) fuel
    else some newName

/-- Unique-name resolution of `save_file_from_bytes`: keep the requested name
when its path is free, otherwise run the collision loop from counter 1. -/
def resolveUniqueName (occ : StoragePath → Bool) (folder : StoragePath)
    (name : String) (fuel : Nat) : Option String :=
  if occ (folder ++ [name]) then resolveLoop occ folder name 1 fuel else some name

/-- `get_folder_path` result reduced to "just the folder name to avoid path
duplication" (`path.file_name()`), as done in `save_file_from_bytes`,
`list_files` and `move_file`. -/
def folderNameOf (p : StoragePath) : StoragePath :=
  match p.getLast? with
  | some n => [n]
  | none => []

/-- The folder path `save_file_from_bytes` stores under (lines 826-850):
resolve the folder id through the mediator and keep just the folder name;
the root path when the id is absent or the mediator fails. -/
def saveFolderPath (med : List (String × StoragePath)) (folderId : Option String) :
    StoragePath :=
  match folderId with
  | some fid =>
    match lookupKey med fid with
    | some p => folderNameOf p
    | none => []        -- `Err(e) =>` branch: logs the error and uses the root path
  | none => []

/-- `FileFsRepository::save_file_from_bytes` (file_fs_repository.rs lines
819-1169): resolve the folder path (falling back to the root when the
mediator fails), find a unique name, ensure the parent directory, write the
bytes (the three size-classed write strategies all store `content` whole),
harvest metadata, allocate the id and persist the mapping.  The retry+verify
loop always succeeds on its first attempt here because `saveChanges`
persists synchronously and the read-back comparison holds by construction. -/
def saveFileFromBytes (st : Store) (name : String) (folderId : Option String)
    (contentType : String) (content : List Nat) : Except RepoError File × Store :=
  let folderPath := saveFolderPath st.mediator folderId
  let fuel := st.fs.length + 1
  match resolveUniqueName (fun p => fsExists st.fs p) folderPath name fuel with
  | none => (.error (.other "unique name resolution exhausted"), st)
  | some storedName =>
    let path := folderPath ++ [storedName]
    let st1 : Store := { st with dirs := folderPath :: st.dirs }
    let st2 : Store := { st1 with fs := fsSet st1.fs path content st1.now }
    let size := content.length
    let mime := if contentType = "" then mimeFromPath path else contentType
    let (id, st3) := getOrCreateId st2 path
    let st4 := saveChanges st3
    (.ok { id := id, name := storedName, storagePath := path, size := size,
           mimeType := mime, folderId := folderId,
           createdAt := st.now, modifiedAt := st.now }, st4)

/-- `FileFsRepository::get_file_by_id` (file_fs_repository.rs lines
1327-1387): resolve the path through the mapping, require a regular file
there, and build the descriptor.  Both branches of the parent computation set
`folder_id = None` ("For simplicity, we'll leave this as None for now",
lines 1358-1367). -/
def getFileById (st : Store) (id : String) : Except RepoError File :=
  match getPathById st id with
  | .error e => .error e
  | .ok storagePath =>
    match fsGet st.fs storagePath with
    | none =>
      .error (.notFound ("File " ++ id ++ " not found at " ++ storagePathString storagePath))
    | some f =>
      match storagePath.getLast? with
      | none => .error (.invalidPath (storagePathString storagePath))
      | some name =>
        let folderId : Option String := none   -- both branches of the source return None
        .ok { id := id, name := name, storagePath := storagePath,
              size := f.content.length, mimeType := mimeFromPath storagePath,
              folderId := folderId, createdAt := f.ctime, modifiedAt := f.mtime }

/-- `file_name.starts_with('.')`: the name's first character is a dot. -/
def startsWithDot (name : String) : Bool :=
  match name.data with
  | [] => false
  | c :: _ => c = '.'

/-- An entry is skipped by the listings when hidden or reserved. -/
def visibleName (name : String) : Bool :=
  !(startsWithDot name || name = "folder_ids.json" || name = "file_ids.json")

/-- The direct child files of a folder, in filesystem enumeration order,
hidden and reserved names skipped. -/
def childFiles (fs : List FsFile) (folder : StoragePath) : List FsFile :=
  fs.filter (fun f => f.path.dropLast = folder && f.path ≠ [] &&
    visibleName ((f.path.getLast?).getD ""))

/-- The development-mode branch of `list_files` (lines 1397-1484): every
visible root file is returned with a FRESH `Uuid::new_v4()` as id; the
mapping is not consulted and not updated. -/
def devListLoop (st : Store) : List FsFile → List File × Store
  | [] => ([], st)
  | f :: rest =>
    let name := (f.path.getLast?).getD ""
    let file : File :=
      { id := freshId st.fresh, name := name, storagePath := f.path,
        size := f.content.length, mimeType := mimeFromPath f.path,
        folderId := none, createdAt := f.ctime, modifiedAt := f.mtime }
    let (files, st') := devListLoop { st with fresh := st.fresh + 1 } rest
    (file :: files, st')

/-- The per-entry body of the normal `list_files` branch (lines 1529-1625):
materialise the id through `get_or_create_id` and build the descriptor with
`folder_id` set to the queried folder id. -/
def listLoop (st : Store) (folderSegs : StoragePath) (fid : String) :
    List FsFile → List File × Store
  | [] => ([], st)
  | f :: rest =>
    let name := (f.path.getLast?).getD ""
    let (id, st1) := getOrCreateId st f.path
    let file : File :=
      { id := id, name := name, storagePath := f.path, size := f.content.length,
        mimeType := mimeFromPath f.path, folderId := some fid,
        createdAt := f.ctime, modifiedAt := f.mtime }
    let (files, st') := listLoop st1 folderSegs fid rest
    (file :: files, st')

/-- `FileFsRepository::list_files` (file_fs_repository.rs lines 1389-1640).
`is_dev_mode` is hard-coded `true`, so `list_files(None)` takes the
development-mode branch over the storage root; `list_files(Some(folder))`
resolves the folder through the mediator (returning an empty list on
failure or when the directory is missing), enumerates its child files with
`get_or_create_id`, and persists any new mappings. -/
def listFiles (st : Store) (folderId : Option String) :
    Except RepoError (List File) × Store :=
  match folderId with
  | none =>
    -- is_dev_mode = true and folder_id.is_none(): list the storage root
    let (files, st') := devListLoop st (childFiles st.fs [])
    (.ok files, st')
  | some fid =>
    match lookupKey st.mediator fid with
    | none => (.ok [], st)       -- `Err(e) =>`: return Ok(Vec::new())
    | some p =>
      let folderSegs := folderNameOf p
      if dirExists st folderSegs then
        let (files, st') := listLoop st folderSegs fid (childFiles st.fs folderSegs)
        let st'' := if files.isEmpty then st' else saveChanges st'
        (.ok files, st'')
      else (.ok [], st)          -- missing directory: return Ok(Vec::new())

/-- `FileFsRepository::delete_file_non_blocking` (lines 394-439): large files
are removed inside `spawn_blocking`, where a removal failure is only logged
and the operation still returns success; small files are removed with the
async primitive and a failure propagates as an I/O error. -/
def deleteFileNonBlocking (cfg : ResourceConfig) (st : Store) (path : StoragePath) :
    Except RepoError Unit × Store :=
  let isLarge :=
    match fsGet st.fs path with
    | none => false
    | some f => cfg.isLargeFile f.content.length
  if isLarge then
    if path ∈ st.failRemove then (.ok (), st)      -- error is logged, not returned
    else (.ok (), { st with fs := fsRemove st.fs path })
  else
    if path ∈ st.failRemove then (.error .ioError, st)
    else (.ok (), { st with fs := fsRemove st.fs path })

/-- `FileFsRepository::delete_file` (lines 1642-1665): resolve the file,
invalidate the metadata caches, and delete the bytes; the mapping is not
touched. -/
def deleteFile (cfg : ResourceConfig) (st : Store) (id : String) :
    Except RepoError Unit × Store :=
  match getFileById st id with
  | .error e => (.error e, st)
  | .ok f =>
    -- metadata cache invalidation is modelled as a no-op
    deleteFileNonBlocking cfg st f.storagePath

/-- `FileFsRepository::delete_file_entry` (lines 1667-1700): try to delete the
bytes but continue even if that fails, then remove the mapping row and
persist the removal. -/
def deleteFileEntry (cfg : ResourceConfig) (st : Store) (id : String) :
    Except RepoError Unit × Store :=
  match getFileById st id with
  | .error e => (.error e, st)
  | .ok f =>
    let (_deleteResult, st1) := deleteFileNonBlocking cfg st f.storagePath
    match removeId st1 id with
    | .error e => (.error e, st1)
    | .ok st2 => (.ok (), saveChanges st2)

/-- `FileFsRepository::get_file_content` (lines 1702-1824): the `read_all`
operation.  A file that cannot be loaded in memory is refused with
`FileRepositoryError::Other("File too large to load in memory: …")`; the
three size-classed read strategies all return the file's bytes. -/
def getFileContent (cfg : ResourceConfig) (st : Store) (id : String) :
    Except RepoError (List Nat) :=
  match getFileById st id with
  | .error e => .error e
  | .ok f =>
    match fsGet st.fs f.storagePath with
    | none => .error .ioError
    | some file =>
      let fileSize := file.content.length
      if !cfg.canLoadInMemory fileSize then
        .error (.other ("File too large to load in memory: "
          ++ natDecimal (fileSize / megabyte) ++ " MB (max: "
          ++ natDecimal cfg.maxInMemoryFileSizeMB ++ " MB)"))
      else if cfg.needsParallelProcessing fileSize then .ok file.content
      else if cfg.isLargeFile fileSize then .ok file.content
      else .ok file.content

/-- `File::with_folder` — modelled from the spec: the descriptor keeps its id,
name, size and timestamps; only the folder reference and the storage path
change ("Identifiers are stable across renames/moves", §3).  The `file.rs`
entity source is not part of the checked tree. -/
def File.withFolder (f : File) (folderId : Option String)
    (folderPath : StoragePath) : File :=
  { f with folderId := folderId, storagePath := folderPath ++ [f.name] }

/-- `FileFsRepository::move_file` (file_fs_repository.rs lines 1894-1989):
no-op when the descriptor's folder equals the target; otherwise resolve the
target folder, fail `AlreadyExists` when the destination exists, rename on
disk, update the mapping row and persist it. -/
def moveFile (st : Store) (id : String) (targetFolderId : Option String) :
    Except RepoError File × Store :=
  match getFileById st id with
  | .error e => (.error e, st)
  | .ok originalFile =>
    if originalFile.folderId = targetFolderId then
      (.ok originalFile, st)     -- already in the target folder: no move
    else
      let targetFolderPath? : Except RepoError StoragePath :=
        match targetFolderId with
        | some fid =>
          match lookupKey st.mediator fid with
          | some p => .ok (folderNameOf p)
          | none => .error (.other "Could not get target folder")
        | none => .ok []
      match targetFolderPath? with
      | .error e => (.error e, st)
      | .ok targetFolderPath =>
        let newStoragePath := targetFolderPath ++ [originalFile.name]
        if fsExists st.fs newStoragePath then
          (.error (.alreadyExists ("File already exists at destination: "
            ++ storagePathString newStoragePath)), st)
        else
          let st1 : Store := { st with dirs := targetFolderPath :: st.dirs }
          let st2 : Store :=
            { st1 with fs := fsRename st1.fs originalFile.storagePath newStoragePath }
          match updatePath st2 id newStoragePath with
          | .error e => (.error e, st2)
          | .ok st3 =>
            let st4 := saveChanges st3
            (.ok (originalFile.withFolder targetFolderId targetFolderPath), st4)

/-- `FileFsRepository::get_file_path` (lines 1991-2000): delegate to the
mapping. -/
def getFilePath (st : Store) (id : String) : Except RepoError StoragePath :=
  getPathById st id

/-- `FileRepository::update_file_content` (file_fs_repository.rs lines
753-818): resolve the file and its path, atomically write the new bytes, and
refresh the metadata cache entry; the id↦path mapping is never touched. -/
def updateFileContent (st : Store) (id : String) (content : List Nat) :
    Except RepoError Unit × Store :=
  match getFileById st id with
  | .error e => (.error e, st)
  | .ok _f =>
    match getFilePath st id with
    | .error e => (.error e, st)
    | .ok path =>
      -- atomic_write, then the metadata cache update (a no-op here)
      (.ok (), { st with fs := fsSet st.fs path content st.now })

/-! ### The IdMappingOptimizer (id_mapping_optimizer.rs)

The optimizer keeps two string-keyed caches in front of the base
`IdMappingService` and a queue of pending batch requests.  The async
interleavings are sequentialised; the TTL timestamps play no role in the
claims and are omitted (every cached entry is treated as live). -/

/-- `MAX_CACHE_SIZE` (id_mapping_optimizer.rs line 14). -/
def maxCacheSize : Nat := 10000

/-- State of the `IdMappingOptimizer` together with its base
`IdMappingService`: the two directional caches, the base document, its
persisted copy, the fresh-uuid supply and the pending batch queues. -/
structure OptState where
  pathToId : List (String × String)
  idToPath : List (String × String)
  base : List (String × String)
  basePersisted : List (String × String)
  fresh : Nat
  pendingPaths : List String
  pendingIds : List String
deriving DecidableEq

/-- `IdMappingService::get_or_create_id` at the optimizer's base — modelled
from the spec (§4.3), on path strings as the optimizer caches them. -/
def baseGetOrCreate (st : OptState) (p : String) : String × OptState :=
  match lookupVal st.base p with
  | some id => (id, st)
  | none =>
    (freshId st.fresh,
     { st with base := (freshId st.fresh, p) :: st.base, fresh := st.fresh + 1 })

/-- `IdMappingService::update_path` at the optimizer's base — modelled from
the spec (§4.3): `() | NotFound | AlreadyExists(new_path)`. -/
def baseUpdatePath (st : OptState) (id newPath : String) :
    Except RepoError OptState :=
  match lookupKey st.base id with
  | none => .error (.notFound id)
  | some _ =>
    match lookupVal st.base newPath with
    | some j =>
      if j = id then .ok { st with base := setKey st.base id newPath }
      else .error (.alreadyExists newPath)
    | none => .ok { st with base := setKey st.base id newPath }

/-- `IdMappingOptimizer::process_batch` (lines 202-284): drain both pending
queues, resolve them against the base service, fill both caches with the
results, and flush the base document (the background save sequentialised). -/
def processBatch (st : OptState) : OptState :=
  let paths := st.pendingPaths
  let ids := st.pendingIds
  let st0 : OptState := { st with pendingPaths := [], pendingIds := [] }
  let st1 := paths.foldl (fun acc p =>
    let (id, acc') := baseGetOrCreate acc p
    { acc' with pathToId := setKey acc'.pathToId p id,
                idToPath := setKey acc'.idToPath id p }) st0
  let st2 := ids.foldl (fun acc id =>
    match lookupKey acc.base id with
    | some p =>
      { acc with idToPath := setKey acc.idToPath id p,
                 pathToId := setKey acc.pathToId p id }
    | none => acc) st1
  { st2 with basePersisted := st2.base }

/-- `IdMappingOptimizer::get_or_create_id` (lines 387-451): cache hit, else
enqueue the path, trigger a batch once 20 requests are pending, resolve
against the base, and insert the pair into both caches, clearing a cache
outright when it reached `MAX_CACHE_SIZE`. -/
def optGetOrCreateId (st : OptState) (p : String) : Except RepoError String × OptState :=
  match lookupKey st.pathToId p with
  | some id => (.ok id, st)
  | none =>
    let st1 : OptState :=
      { st with pendingPaths :=
          if p ∈ st.pendingPaths then st.pendingPaths else p :: st.pendingPaths }
    let st2 :=
      if 20 ≤ st1.pendingPaths.length + st1.pendingIds.length then processBatch st1
      else st1
    let (id, st3) := baseGetOrCreate st2 p
    let pathCache := if maxCacheSize ≤ st3.pathToId.length then [] else st3.pathToId
    let idCache := if maxCacheSize ≤ st3.idToPath.length then [] else st3.idToPath
    (.ok id, { st3 with pathToId := setKey pathCache p id,
                        idToPath := setKey idCache id p })

/-- `IdMappingOptimizer::get_path_by_id` (lines 453-507): cache hit, else
resolve against the base and insert the pair into both caches with the same
size control. -/
def optGetPathById (st : OptState) (id : String) : Except RepoError String × OptState :=
  match lookupKey st.idToPath id with
  | some p => (.ok p, st)
  | none =>
    match lookupKey st.base id with
    | none => (.error (.notFound id), st)
    | some p =>
      let idCache := if maxCacheSize ≤ st.idToPath.length then [] else st.idToPath
      let pathCache := if maxCacheSize ≤ st.pathToId.length then [] else st.pathToId
      (.ok p, { st with idToPath := setKey idCache id p,
                        pathToId := setKey pathCache p id })

/-- `IdMappingOptimizer::update_path` (lines 509-537): drop the id's cache
entry and its paired path entry, delegate to the base service, and on success
insert the new pair into both caches. -/
def optUpdatePath (st : OptState) (id newPath : String) :
    Except RepoError Unit × OptState :=
  let stInv : OptState :=
    match lookupKey st.idToPath id with
    | some oldPath =>
      { st with idToPath := removeKey st.idToPath id,
                pathToId := removeKey st.pathToId oldPath }
    | none => st
  match baseUpdatePath stInv id newPath with
  | .error e => (.error e, stInv)
  | .ok st' =>
    (.ok (), { st' with idToPath := setKey st'.idToPath id newPath,
                        pathToId := setKey st'.pathToId newPath id })

/-! ### Association-list lemmas -/

theorem lookupKey_setKey_self {β : Type} (m : List (String × β)) (k : String) (v : β) :
    lookupKey (setKey m k v) k = some v := by
  induction m with
  | nil => simp [setKey, lookupKey]
  | cons kv rest ih =>
    obtain ⟨k', v'⟩ := kv
    by_cases h : k' = k
    · simp [setKey, h, lookupKey]
    · simp [setKey, h, lookupKey, ih]

theorem lookupKey_setKey_ne {β : Type} (m : List (String × β)) {k k' : String} (v : β)
    (h : k' ≠ k) : lookupKey (setKey m k v) k' = lookupKey m k' := by
  induction m with
  | nil => simp [setKey, lookupKey, Ne.symm h]
  | cons kv rest ih =>
    obtain ⟨k0, v0⟩ := kv
    by_cases h0 : k0 = k
    · subst h0
      simp [setKey, lookupKey, Ne.symm h]
    · simp only [setKey, h0, if_false, lookupKey]
      by_cases h1 : k0 = k'
      · simp [h1]
      · simp [h1, ih]

theorem lookupKey_removeKey_self {β : Type} (m : List (String × β)) (k : String) :
    lookupKey (removeKey m k) k = none := by
  induction m with
  | nil => simp [removeKey, lookupKey]
  | cons kv rest ih =>
    obtain ⟨k', v'⟩ := kv
    by_cases h : k' = k
    · simp [removeKey, h, ih]
    · simp [removeKey, h, lookupKey, ih]

theorem lookupKey_removeKey_ne {β : Type} (m : List (String × β)) {k k' : String}
    (h : k' ≠ k) : lookupKey (removeKey m k) k' = lookupKey m k' := by
  induction m with
  | nil => simp [removeKey]
  | cons kv rest ih =>
    obtain ⟨k0, v0⟩ := kv
    by_cases h0 : k0 = k
    · subst h0
      simp [removeKey, lookupKey, Ne.symm h, ih]
    · simp only [removeKey, h0, if_false, lookupKey]
      by_cases h1 : k0 = k'
      · simp [h1]
      · simp [h1, ih]

/-! ### Filesystem lemmas -/

theorem fsGet_path {fs : List FsFile} {p : StoragePath} {f : FsFile}
    (h : fsGet fs p = some f) : f.path = p := by
  induction fs with
  | nil => simp [fsGet] at h
  | cons g rest ih =>
    unfold fsGet at h
    split at h
    · next heq => injection h with h; subst h; assumption
    · next => exact ih h

theorem fsGet_fsSet_ne {fs : List FsFile} {p q : StoragePath} (c : List Nat) (n : Nat)
    (h : q ≠ p) : fsGet (fsSet fs p c n) q = fsGet fs q := by
  induction fs with
  | nil => simp [fsSet, fsGet, Ne.symm h]
  | cons g rest ih =>
    by_cases hg : g.path = p
    · simp [fsSet, hg, fsGet, Ne.symm h]
    · simp only [fsSet, hg, if_false, fsGet]
      by_cases hq : g.path = q
      · simp [hq]
      · simp [hq, ih]

theorem fsExists_fsSet {fs : List FsFile} {p q : StoragePath} (c : List Nat) (n : Nat) :
    fsExists (fsSet fs p c n) q = true ↔ q = p ∨ fsExists fs q = true := by
  by_cases h : q = p
  · subst h
    constructor
    · intro _; exact Or.inl rfl
    · intro _
      unfold fsExists
      induction fs with
      | nil => simp [fsSet, fsGet]
      | cons g rest ih =>
        by_cases hg : g.path = q
        · simp [fsSet, hg, fsGet]
        · simp only [fsSet, hg, if_false, fsGet]
          by_cases hq : (⟨q, c, n, n⟩ : FsFile).path = q
          · simpa [hg] using ih
          · simp at hq
  · rw [show fsExists (fsSet fs p c n) q = fsExists fs q from
      congrArg Option.isSome (fsGet_fsSet_ne c n h)]
    simp [h]

theorem fsGet_fsRemove_ne {fs : List FsFile} {p q : StoragePath}
    (h : q ≠ p) : fsGet (fsRemove fs p) q = fsGet fs q := by
  induction fs with
  | nil => simp [fsRemove]
  | cons g rest ih =>
    by_cases hg : g.path = p
    · simp [fsRemove, hg, fsGet, Ne.symm h, ih]
    · simp only [fsRemove, hg, if_false, fsGet]
      by_cases hq : g.path = q
      · simp [hq]
      · simp [hq, ih]

theorem fsGet_fsRemove_self (fs : List FsFile) (p : StoragePath) :
    fsGet (fsRemove fs p) p = none := by
  induction fs with
  | nil => simp [fsRemove, fsGet]
  | cons g rest ih =>
    by_cases hg : g.path = p
    · simp [fsRemove, hg, ih]
    · simp [fsRemove, hg, fsGet, ih]

/-- Inversion of a successful `get_file_by_id`: the mapping row exists, a
regular file sits at the mapped path, and every descriptor field is derived
from them; in particular `folder_id` is always `None`. -/
theorem getFileById_ok_inv {st : Store} {id : String} {f : File}
    (h : getFileById st id = .ok f) :
    lookupKey st.mapping id = some f.storagePath ∧
    f.id = id ∧ f.folderId = none ∧
    ∃ c, fsGet st.fs f.storagePath = some ⟨f.storagePath, c, f.createdAt, f.modifiedAt⟩ ∧
      f.size = c.length := by
  unfold getFileById getPathById at h
  cases hmap : lookupKey st.mapping id with
  | none => rw [hmap] at h; simp at h
  | some p =>
    rw [hmap] at h
    dsimp only at h
    cases hfs : fsGet st.fs p with
    | none => rw [hfs] at h; simp at h
    | some file =>
      rw [hfs] at h
      cases hname : p.getLast? with
      | none => rw [hname] at h; simp at h
      | some nm =>
        rw [hname] at h
        dsimp only at h
        injection h with h
        subst h
        refine ⟨rfl, rfl, rfl, file.content, ?_, rfl⟩
        have hp := fsGet_path hfs
        rw [hfs]
        cases file
        simp only at hp
        simp [hp]

/-! ### Frame lemmas for the mapping service and store well-formedness -/

theorem getOrCreateId_fs (st : Store) (p : StoragePath) :
    (getOrCreateId st p).2.fs = st.fs := by
  unfold getOrCreateId; cases lookupVal st.mapping p <;> rfl

theorem getOrCreateId_dirs (st : Store) (p : StoragePath) :
    (getOrCreateId st p).2.dirs = st.dirs := by
  unfold getOrCreateId; cases lookupVal st.mapping p <;> rfl

theorem getOrCreateId_mediator (st : Store) (p : StoragePath) :
    (getOrCreateId st p).2.mediator = st.mediator := by
  unfold getOrCreateId; cases lookupVal st.mapping p <;> rfl

theorem getOrCreateId_now (st : Store) (p : StoragePath) :
    (getOrCreateId st p).2.now = st.now := by
  unfold getOrCreateId; cases lookupVal st.mapping p <;> rfl

theorem getOrCreateId_failRemove (st : Store) (p : StoragePath) :
    (getOrCreateId st p).2.failRemove = st.failRemove := by
  unfold getOrCreateId; cases lookupVal st.mapping p <;> rfl

theorem freshId_injective {m n : Nat} (h : freshId m = freshId n) : m = n := by
  unfold freshId at h
  have hd := data_eq_of_eq h
  simp only [String.data_append] at hd
  exact natDecimal_injective (string_eq_of_data_eq (List.append_cancel_left hd))

/-- Ids drawn from the fresh supply at or above the store's counter are not
yet in the mapping (the UUIDv4 freshness assumption). -/
def freshOk (st : Store) : Prop :=
  ∀ k, st.fresh ≤ k → lookupKey st.mapping (freshId k) = none

/-- Well-formedness of the mapping document: ids are pairwise distinct and so
are paths ("duplicate path strings are rejected at load time", spec §6). -/
def mappingWf (m : List (String × StoragePath)) : Prop :=
  (m.map Prod.fst).Nodup ∧ (m.map Prod.snd).Nodup

theorem lookupVal_mem {β : Type} [DecidableEq β] {m : List (String × β)} {v : β}
    {k : String} (h : lookupVal m v = some k) : (k, v) ∈ m := by
  induction m with
  | nil => simp [lookupVal] at h
  | cons kv rest ih =>
    obtain ⟨k0, v0⟩ := kv
    unfold lookupVal at h
    split at h
    · next heq => injection h with h; subst h; subst heq; exact List.mem_cons_self _ _
    · next => exact List.mem_cons_of_mem _ (ih h)

theorem lookupKey_of_mem_nodup {β : Type} {m : List (String × β)} {k : String} {v : β}
    (hnd : (m.map Prod.fst).Nodup) (hmem : (k, v) ∈ m) : lookupKey m k = some v := by
  induction m with
  | nil => simp at hmem
  | cons kv rest ih =>
    obtain ⟨k0, v0⟩ := kv
    simp only [List.map_cons, List.nodup_cons] at hnd
    rcases List.mem_cons.mp hmem with heq | hmem'
    · injection heq with h1 h2
      subst h1; subst h2
      simp [lookupKey]
    · have hk : k0 ≠ k := by
        intro hcontra
        subst hcontra
        exact hnd.1 (List.mem_map.mpr ⟨(k0, v), hmem', rfl⟩)
      simp [lookupKey, hk, ih hnd.2 hmem']

/-- In a well-formed mapping, the reverse index agrees with the forward map. -/
theorem lookupKey_of_lookupVal {m : List (String × StoragePath)} {p : StoragePath}
    {id : String} (hwf : mappingWf m) (h : lookupVal m p = some id) :
    lookupKey m id = some p :=
  lookupKey_of_mem_nodup hwf.1 (lookupVal_mem h)

/-- C10: `update_content` mutates only the file's on-disk bytes: for every
store, id and content, the in-memory and the persisted id↦path mappings are
unchanged, `path_of` answers exactly as before for every id, and every path
other than the updated file's own resolves to the same file as before. -/
theorem C10_update_content_frame (st : Store) (id : String) (content : List Nat) :
    (updateFileContent st id content).2.mapping = st.mapping ∧
    (updateFileContent st id content).2.persisted = st.persisted ∧
    (∀ j, getFilePath (updateFileContent st id content).2 j = getFilePath st j) ∧
    (∀ p q, getFilePath st id = .ok p → q ≠ p →
      fsGet (updateFileContent st id content).2.fs q = fsGet st.fs q) := by
  unfold updateFileContent
  cases hget : getFileById st id with
  | error e => exact ⟨rfl, rfl, fun _ => rfl, fun _ _ _ _ => rfl⟩
  | ok f =>
    cases hpath : getFilePath st id with
    | error e => exact ⟨rfl, rfl, fun _ => rfl, fun p q hp _ => by simp at hp⟩
    | ok p =>
      refine ⟨rfl, rfl, fun _ => rfl, fun p' q hp' hq => ?_⟩
      injection hp' with hp'
      subst hp'
      exact fsGet_fsSet_ne content st.now hq

/-- A store with one mapped one-byte file at the root and a zero-MB in-memory
ceiling, exhibiting the `read_all` error classification. -/
def stC8 : Store :=
  { fs := [⟨["big.bin"], [1], 0, 0⟩], dirs := [],
    mapping := [("uuid-0", ["big.bin"])], persisted := [("uuid-0", ["big.bin"])],
    fresh := 1, now := 0, failRemove := [], mediator := [] }

def cfgC8 : ResourceConfig :=
  { largeFileThresholdMB := 0, parallelThresholdMB := 0, maxInMemoryFileSizeMB := 0 }

/-- C8 counterexample: `read_all` on a file exceeding
`max_in_memory_file_size_mb` fails with `Other("File too large …")`, not with
a typed `TooLarge` error: with a 0 MB ceiling and a 1-byte file the result is
the `Other` variant. -/
theorem C8_read_all_returns_other_not_tooLarge :
    getFileContent cfgC8 stC8 "uuid-0" =
      .error (.other "File too large to load in memory: 0 MB (max: 0 MB)") := by
  rfl

/-- C8 (amended): `read_all` on a file whose size exceeds
`max_in_memory_file_size_mb` fails with the untyped
`Other("File too large to load in memory: …")` error, and a file of size not
above the ceiling (in particular exactly at it) is read and its bytes
returned. -/
theorem C8_read_all_size_classification (cfg : ResourceConfig) (st : Store)
    (id : String) (f : File) (hget : getFileById st id = .ok f) :
    (cfg.maxInMemoryFileSizeMB * megabyte < f.size →
      getFileContent cfg st id = .error (.other ("File too large to load in memory: "
        ++ natDecimal (f.size / megabyte) ++ " MB (max: "
        ++ natDecimal cfg.maxInMemoryFileSizeMB ++ " MB)"))) ∧
    (f.size ≤ cfg.maxInMemoryFileSizeMB * megabyte →
      ∃ c, fsGet st.fs f.storagePath = some ⟨f.storagePath, c, f.createdAt, f.modifiedAt⟩ ∧
        c.length = f.size ∧ getFileContent cfg st id = .ok c) := by
  obtain ⟨-, -, -, c, hfs, hsize⟩ := getFileById_ok_inv hget
  constructor
  · intro hbig
    have hload : cfg.canLoadInMemory c.length = false := by
      simp only [ResourceConfig.canLoadInMemory, decide_eq_false_iff_not, Nat.not_le]
      omega
    unfold getFileContent
    rw [hget]
    dsimp only
    rw [hfs]
    dsimp only
    simp only [hload, Bool.not_false, if_true]
    rw [hsize]
  · intro hsmall
    have hload : cfg.canLoadInMemory c.length = true := by
      simp only [ResourceConfig.canLoadInMemory, decide_eq_true_eq]
      omega
    refine ⟨c, hfs, hsize.symm, ?_⟩
    unfold getFileContent
    rw [hget]
    dsimp only
    rw [hfs]
    dsimp only
    simp [hload, ite_self]

/-- C8 witness: the amended theorem applied to a concrete store holding a
one-byte file, with both size classes exercised through the ceiling choice. -/
theorem C8_read_all_size_classification_witness :
    (getFileById stC8 "uuid-0" =
      .ok { id := "uuid-0", name := "big.bin", storagePath := ["big.bin"], size := 1,
            mimeType := "application/octet-stream", folderId := none,
            createdAt := 0, modifiedAt := 0 }) ∧
    (cfgC8.maxInMemoryFileSizeMB * megabyte < 1 →
      getFileContent cfgC8 stC8 "uuid-0" = .error (.other ("File too large to load in memory: "
        ++ natDecimal (1 / megabyte) ++ " MB (max: "
        ++ natDecimal cfgC8.maxInMemoryFileSizeMB ++ " MB)"))) :=
  ⟨rfl, (C8_read_all_size_classification cfgC8 stC8 "uuid-0" _ rfl).1⟩

/-- A store with no mediator entry at all, so any folder id fails to
resolve. -/
def stC3 : Store :=
  { fs := [], dirs := [], mapping := [], persisted := [],
    fresh := 0, now := 7, failRemove := [], mediator := [] }

/-- C3 counterexample: saving into an unresolvable folder id does NOT fail
with `NotFound` — the operation succeeds and stores the file at the storage
root: `save("a.txt", Some("F"), …)` with no folder `"F"` returns `Ok` with
storage path `["a.txt"]`, and the bytes exist at the root afterwards. -/
theorem C3_save_missing_folder_succeeds_at_root :
    (saveFileFromBytes stC3 "a.txt" (some "F") "text/plain" [104, 105]).1 =
      .ok { id := "uuid-0", name := "a.txt", storagePath := ["a.txt"], size := 2,
            mimeType := "text/plain", folderId := some "F",
            createdAt := 7, modifiedAt := 7 } ∧
    fsExists (saveFileFromBytes stC3 "a.txt" (some "F") "text/plain" [104, 105]).2.fs
      ["a.txt"] = true := ⟨rfl, rfl⟩

/-- C3 (amended): when the folder id does not resolve, `save` logs the error
and falls back to the storage root: the save succeeds and creates the file at
the root (it does not fail with `NotFound`). -/
theorem C3_save_missing_folder_falls_back_to_root (st : Store) (name : String)
    (fid : String) (ct : String) (content : List Nat)
    (hmed : lookupKey st.mediator fid = none)
    (hfree : fsExists st.fs [name] = false) :
    ∃ file st', saveFileFromBytes st name (some fid) ct content = (.ok file, st') ∧
      file.storagePath = [name] ∧ file.name = name ∧
      fsExists st'.fs [name] = true := by
  unfold saveFileFromBytes saveFolderPath
  dsimp only
  rw [hmed]
  dsimp only
  have hres : resolveUniqueName (fun p => fsExists st.fs p) [] name (st.fs.length + 1)
      = some name := by
    unfold resolveUniqueName
    simp [hfree]
  rw [hres]
  dsimp only
  refine ⟨_, _, rfl, by simp, rfl, ?_⟩
  have hfs2 : (saveChanges (getOrCreateId
      { st with dirs := [] :: st.dirs,
                fs := fsSet st.fs ([] ++ [name]) content st.now } ([] ++ [name])).2).fs
      = fsSet st.fs ([] ++ [name]) content st.now := by
    rw [show ∀ s : Store, (saveChanges s).fs = s.fs from fun _ => rfl]
    rw [getOrCreateId_fs]
  rw [hfs2]
  have := (@fsExists_fsSet st.fs ([] ++ [name]) [name] content st.now).mpr
    (Or.inl (by simp))
  simpa using this

/-- C3 witness: the amended theorem applied to the empty-mediator store. -/
theorem C3_save_missing_folder_falls_back_to_root_witness :
    (lookupKey stC3.mediator "F" = none ∧ fsExists stC3.fs ["a.txt"] = false) ∧
    (∃ file st', saveFileFromBytes stC3 "a.txt" (some "F") "text/plain" [104, 105]
        = (.ok file, st') ∧
      file.storagePath = ["a.txt"] ∧ file.name = "a.txt" ∧
      fsExists st'.fs ["a.txt"] = true) :=
  ⟨⟨rfl, rfl⟩,
   C3_save_missing_folder_falls_back_to_root stC3 "a.txt" "F" "text/plain" [104, 105] rfl rfl⟩

/-- A store with a mapped file nested inside the folder `docs` (mediator id
`"F"`). -/
def stC6 : Store :=
  { fs := [⟨["docs", "a.txt"], [1, 2], 3, 4⟩], dirs := [["docs"]],
    mapping := [("uuid-0", ["docs", "a.txt"])],
    persisted := [("uuid-0", ["docs", "a.txt"])],
    fresh := 1, now := 9, failRemove := [], mediator := [("F", ["docs"])] }

/-- C6 failing input: `get(id)` on a file whose storage path has TWO segments
(`docs/a.txt`) returns a descriptor with `folder_id = None` — the source sets
`folder_id` to `None` in both branches ("For simplicity, we'll leave this as
None for now", file_fs_repository.rs lines 1358-1367), so the claimed
equivalence `folder_id == None ⇔ path has exactly one segment` fails. -/
theorem C6_get_reports_folderId_none_for_nested_file :
    getFileById stC6 "uuid-0" =
      .ok { id := "uuid-0", name := "a.txt", storagePath := ["docs", "a.txt"], size := 2,
            mimeType := "application/octet-stream", folderId := none,
            createdAt := 3, modifiedAt := 4 } := by
  rfl

theorem deleteFileNonBlocking_mapping (cfg : ResourceConfig) (st : Store)
    (p : StoragePath) : (deleteFileNonBlocking cfg st p).2.mapping = st.mapping := by
  unfold deleteFileNonBlocking
  dsimp only
  split <;> split <;> rfl

theorem deleteFileNonBlocking_persisted (cfg : ResourceConfig) (st : Store)
    (p : StoragePath) : (deleteFileNonBlocking cfg st p).2.persisted = st.persisted := by
  unfold deleteFileNonBlocking
  dsimp only
  split <;> split <;> rfl

/-- A store with one mapped three-byte file whose OS-level removal fails,
under a configuration that classifies every file as large. -/
def stC7 : Store :=
  { fs := [⟨["big.bin"], [1, 2, 3], 0, 0⟩], dirs := [],
    mapping := [("uuid-0", ["big.bin"])], persisted := [("uuid-0", ["big.bin"])],
    fresh := 1, now := 0, failRemove := [["big.bin"]], mediator := [] }

def cfgC7 : ResourceConfig :=
  { largeFileThresholdMB := 0, parallelThresholdMB := 0, maxInMemoryFileSizeMB := 0 }

/-- C7 counterexample: `delete` does NOT always propagate an I/O failure.
For a file classified as large, the removal runs inside `spawn_blocking`
where the error is only logged: deleting `big.bin`, whose removal fails,
returns success and leaves the store (bytes included) unchanged. -/
theorem C7_delete_swallows_large_file_error :
    deleteFile cfgC7 stC7 "uuid-0" = (.ok (), stC7) := by
  rfl

/-- C7 (amended): `delete` removes only the bytes and never touches the
mapping; it propagates the I/O failure for files below the large-file
threshold (for large files the failure is only logged and success returned —
see the counterexample).  `delete_entry` removes the mapping row and persists
that removal, returning success even when deleting the physical bytes fails;
`remove_id` and `save_changes` take effect only in `delete_entry`. -/
theorem C7_delete_vs_delete_entry :
    (∀ cfg st id f, getFileById st id = .ok f →
      cfg.isLargeFile f.size = false → f.storagePath ∈ st.failRemove →
      deleteFile cfg st id = (.error .ioError, st)) ∧
    (∀ cfg st id,
      (deleteFile cfg st id).2.mapping = st.mapping ∧
      (deleteFile cfg st id).2.persisted = st.persisted) ∧
    (∀ cfg st id f, getFileById st id = .ok f →
      ∃ st', deleteFileEntry cfg st id = (.ok (), st') ∧
        st'.mapping = removeKey st.mapping id ∧
        st'.persisted = removeKey st.mapping id) := by
  refine ⟨?_, ?_, ?_⟩
  · intro cfg st id f hget hsmall hfail
    obtain ⟨-, -, -, c, hfs, hsize⟩ := getFileById_ok_inv hget
    unfold deleteFile
    rw [hget]
    unfold deleteFileNonBlocking
    dsimp only
    rw [hfs]
    dsimp only
    rw [hsize] at hsmall
    simp [hsmall, hfail]
  · intro cfg st id
    unfold deleteFile
    cases hget : getFileById st id with
    | error e => exact ⟨rfl, rfl⟩
    | ok f =>
      exact ⟨deleteFileNonBlocking_mapping cfg st f.storagePath,
             deleteFileNonBlocking_persisted cfg st f.storagePath⟩
  · intro cfg st id f hget
    obtain ⟨hmap, -, -, -, -, -⟩ := getFileById_ok_inv hget
    unfold deleteFileEntry
    rw [hget]
    dsimp only
    have hm := deleteFileNonBlocking_mapping cfg st f.storagePath
    cases hnb : deleteFileNonBlocking cfg st f.storagePath with
    | mk r st1 =>
      rw [hnb] at hm
      dsimp only at hm
      unfold removeId
      rw [hm, hmap]
      dsimp only
      exact ⟨_, rfl, by simp [saveChanges, hm], by simp [saveChanges, hm]⟩

/-- A store with one mapped one-byte file whose removal fails, under a
configuration whose large-file threshold is 1 MB (the file is small). -/
def stC7s : Store :=
  { fs := [⟨["s.txt"], [1], 0, 0⟩], dirs := [],
    mapping := [("uuid-0", ["s.txt"])], persisted := [("uuid-0", ["s.txt"])],
    fresh := 1, now := 0, failRemove := [["s.txt"]], mediator := [] }

def cfgC7s : ResourceConfig :=
  { largeFileThresholdMB := 1, parallelThresholdMB := 1, maxInMemoryFileSizeMB := 1 }

/-- C7 witness: the amended theorem applied to concrete stores — a small
failing removal propagates `Io` and leaves the mapping alone; `delete_entry`
removes and persists the mapping row even though the bytes survive. -/
theorem C7_delete_vs_delete_entry_witness :
    (getFileById stC7s "uuid-0" =
      .ok { id := "uuid-0", name := "s.txt", storagePath := ["s.txt"], size := 1,
            mimeType := "application/octet-stream", folderId := none,
            createdAt := 0, modifiedAt := 0 }) ∧
    deleteFile cfgC7s stC7s "uuid-0" = (.error .ioError, stC7s) ∧
    (∃ st', deleteFileEntry cfgC7 stC7 "uuid-0" = (.ok (), st') ∧
      st'.mapping = removeKey stC7.mapping "uuid-0" ∧
      st'.persisted = removeKey stC7.mapping "uuid-0") := by
  refine ⟨rfl, ?_, ?_⟩
  · exact C7_delete_vs_delete_entry.1 cfgC7s stC7s "uuid-0" _ rfl rfl
      (show ["s.txt"] ∈ [["s.txt"]] from List.mem_singleton.mpr rfl)
  · exact C7_delete_vs_delete_entry.2.2 cfgC7 stC7 "uuid-0" _ rfl

theorem baseUpdatePath_ok_caches {st : OptState} {id p : String} {st' : OptState}
    (h : baseUpdatePath st id p = .ok st') :
    st'.idToPath = st.idToPath ∧ st'.pathToId = st.pathToId := by
  unfold baseUpdatePath at h
  cases hk : lookupKey st.base id with
  | none => rw [hk] at h; simp at h
  | some q =>
    rw [hk] at h
    dsimp only at h
    cases hv : lookupVal st.base p with
    | some j =>
      rw [hv] at h
      dsimp only at h
      split at h
      · injection h with h; subst h; exact ⟨rfl, rfl⟩
      · simp at h
    | none =>
      rw [hv] at h
      injection h with h
      subst h
      exact ⟨rfl, rfl⟩

/-- C9: the optimizer's `update_path` invalidates the id's cache entry and
its paired path entry before delegating.  On success both directions hold the
new pair — `get_path_by_id(id)` answers `p` and `get_or_create_id(p)` answers
`id` straight from the cache — and no entry for the old path remains; on a
base-service failure the invalidation has already happened and no entry for
the id or the old path remains in either cache. -/
theorem C9_update_path_invalidates_both_directions (st : OptState)
    (id oldPath newPath : String)
    (hold : lookupKey st.idToPath id = some oldPath)
    (hne : oldPath ≠ newPath) :
    ((optUpdatePath st id newPath).1 = .ok () →
      lookupKey (optUpdatePath st id newPath).2.idToPath id = some newPath ∧
      lookupKey (optUpdatePath st id newPath).2.pathToId newPath = some id ∧
      lookupKey (optUpdatePath st id newPath).2.pathToId oldPath = none ∧
      (optGetPathById (optUpdatePath st id newPath).2 id).1 = .ok newPath ∧
      (optGetOrCreateId (optUpdatePath st id newPath).2 newPath).1 = .ok id) ∧
    (∀ e, (optUpdatePath st id newPath).1 = .error e →
      lookupKey (optUpdatePath st id newPath).2.idToPath id = none ∧
      lookupKey (optUpdatePath st id newPath).2.pathToId oldPath = none) := by
  unfold optUpdatePath
  rw [hold]
  dsimp only
  set stInv : OptState :=
    { st with idToPath := removeKey st.idToPath id,
              pathToId := removeKey st.pathToId oldPath } with hstInv
  cases hbase : baseUpdatePath stInv id newPath with
  | ok st' =>
    obtain ⟨hid, hpath⟩ := baseUpdatePath_ok_caches hbase
    dsimp only
    have h1 : lookupKey (setKey st'.idToPath id newPath) id = some newPath :=
      lookupKey_setKey_self _ _ _
    have h2 : lookupKey (setKey st'.pathToId newPath id) newPath = some id :=
      lookupKey_setKey_self _ _ _
    have h3 : lookupKey (setKey st'.pathToId newPath id) oldPath = none := by
      rw [lookupKey_setKey_ne _ _ hne, hpath, hstInv]
      exact lookupKey_removeKey_self _ _
    refine ⟨fun _ => ⟨h1, h2, h3, ?_, ?_⟩, fun e he => by simp at he⟩
    · unfold optGetPathById
      rw [h1]
    · unfold optGetOrCreateId
      rw [h2]
  | error e =>
    dsimp only
    refine ⟨fun h => by simp at h, fun e' he' => ⟨?_, ?_⟩⟩
    · exact lookupKey_removeKey_self _ _
    · exact lookupKey_removeKey_self _ _

/-- A coherent optimizer state with one cached pair `uuid-0 ⇄ a`. -/
def ostC9 : OptState :=
  { pathToId := [("a", "uuid-0")], idToPath := [("uuid-0", "a")],
    base := [("uuid-0", "a")], basePersisted := [("uuid-0", "a")],
    fresh := 1, pendingPaths := [], pendingIds := [] }

/-- C9 witness: the theorem applied to the concrete state, moving `uuid-0`
from path `a` to path `b`. -/
theorem C9_update_path_invalidates_both_directions_witness :
    (lookupKey ostC9.idToPath "uuid-0" = some "a" ∧ "a" ≠ "b") ∧
    (lookupKey (optUpdatePath ostC9 "uuid-0" "b").2.idToPath "uuid-0" = some "b" ∧
     lookupKey (optUpdatePath ostC9 "uuid-0" "b").2.pathToId "b" = some "uuid-0" ∧
     lookupKey (optUpdatePath ostC9 "uuid-0" "b").2.pathToId "a" = none ∧
     (optGetPathById (optUpdatePath ostC9 "uuid-0" "b").2 "uuid-0").1 = .ok "b" ∧
     (optGetOrCreateId (optUpdatePath ostC9 "uuid-0" "b").2 "b").1 = .ok "uuid-0") :=
  ⟨⟨rfl, by decide⟩,
   (C9_update_path_invalidates_both_directions ostC9 "uuid-0" "a" "b" rfl (by decide)).1 rfl⟩

/-- A store with a mapped file inside the folder `docs`, whose mediator id is
`"F"`. -/
def stC4 : Store :=
  { fs := [⟨["docs", "a.txt"], [1], 2, 3⟩], dirs := [["docs"]],
    mapping := [("uuid-0", ["docs", "a.txt"])],
    persisted := [("uuid-0", ["docs", "a.txt"])],
    fresh := 1, now := 5, failRemove := [], mediator := [("F", ["docs"])] }

/-- C4 counterexample: moving a file into the folder it ALREADY lives in is
not a no-op.  Because `get_file_by_id` always reports `folder_id = None`, the
same-folder comparison fails for `Some(F)`, the destination path is computed
as the file's own path, and the move fails with `AlreadyExists`. -/
theorem C4_move_to_own_folder_fails_alreadyExists :
    moveFile stC4 "uuid-0" (some "F") =
      (.error (.alreadyExists "File already exists at destination: docs/a.txt"),
       stC4) := by
  rfl

/-- C4 (amended): the same-folder no-op applies exactly when the target
equals the descriptor's `folder_id`, which `get_file_by_id` always reports as
`None`: `move(id, None)` returns the very same descriptor (same id, name,
path, timestamps) and leaves the store untouched (no rename, no mapping
update, no `AlreadyExists`); whereas `move(id, Some(F))` for a file already
living in folder `F` falls through the no-op check and fails with
`AlreadyExists`. -/
theorem C4_move_no_op_only_for_target_none :
    (∀ st id f, getFileById st id = .ok f →
      moveFile st id none = (.ok f, st)) ∧
    (∀ st id f fid p, getFileById st id = .ok f →
      lookupKey st.mediator fid = some p →
      folderNameOf p ++ [f.name] = f.storagePath →
      moveFile st id (some fid) =
        (.error (.alreadyExists ("File already exists at destination: "
          ++ storagePathString f.storagePath)), st)) := by
  constructor
  · intro st id f hget
    obtain ⟨-, -, hfold, -⟩ := getFileById_ok_inv hget
    unfold moveFile
    rw [hget]
    dsimp only
    rw [hfold]
    rfl
  · intro st id f fid p hget hmed heq
    obtain ⟨-, -, hfold, c, hfs, -⟩ := getFileById_ok_inv hget
    have hex : fsExists st.fs f.storagePath = true := by
      unfold fsExists
      rw [hfs]
      rfl
    unfold moveFile
    rw [hget]
    dsimp only
    rw [hfold]
    rw [if_neg (show ¬ (none : Option String) = some fid by simp)]
    rw [hmed]
    dsimp only
    rw [heq, hex]
    rfl

/-- A store with one mapped file at the root. -/
def stC4r : Store :=
  { fs := [⟨["x"], [1], 2, 3⟩], dirs := [],
    mapping := [("uuid-0", ["x"])], persisted := [("uuid-0", ["x"])],
    fresh := 1, now := 5, failRemove := [], mediator := [] }

/-- C4 witness: the amended theorem applied to concrete stores — the
target-`None` no-op on a root file, and the `AlreadyExists` failure when
re-targeting the file's own folder. -/
theorem C4_move_no_op_only_for_target_none_witness :
    (getFileById stC4r "uuid-0" =
      .ok { id := "uuid-0", name := "x", storagePath := ["x"], size := 1,
            mimeType := "application/octet-stream", folderId := none,
            createdAt := 2, modifiedAt := 3 } ∧
     moveFile stC4r "uuid-0" none =
      (.ok { id := "uuid-0", name := "x", storagePath := ["x"], size := 1,
             mimeType := "application/octet-stream", folderId := none,
             createdAt := 2, modifiedAt := 3 }, stC4r)) ∧
    (lookupKey stC4.mediator "F" = some ["docs"] ∧
     moveFile stC4 "uuid-0" (some "F") =
      (.error (.alreadyExists ("File already exists at destination: "
        ++ storagePathString ["docs", "a.txt"])), stC4)) := by
  refine ⟨⟨rfl, ?_⟩, rfl, ?_⟩
  · exact C4_move_no_op_only_for_target_none.1 stC4r "uuid-0" _ rfl
  · exact C4_move_no_op_only_for_target_none.2 stC4 "uuid-0" _ "F" ["docs"] rfl rfl rfl

theorem updatePath_ok_inv {st : Store} {id : String} {p : StoragePath} {st' : Store}
    (h : updatePath st id p = .ok st') :
    st' = { st with mapping := setKey st.mapping id p } := by
  unfold updatePath at h
  cases hk : lookupKey st.mapping id with
  | none => rw [hk] at h; simp at h
  | some q =>
    rw [hk] at h
    dsimp only at h
    cases hv : lookupVal st.mapping p with
    | some j =>
      rw [hv] at h
      dsimp only at h
      split at h
      · injection h with h; exact h.symm
      · simp at h
    | none =>
      rw [hv] at h
      injection h with h
      exact h.symm

/-- A successful `move_file` preserves the object id and rewrites at most the
moved id's mapping row. -/
theorem moveFile_ok_inv {st : Store} {id : String} {t : Option String}
    {f' : File} {st2 : Store} (h : moveFile st id t = (.ok f', st2)) :
    f'.id = id ∧ lookupKey st2.mapping id = some f'.storagePath ∧
    (∀ j, j ≠ id → lookupKey st2.mapping j = lookupKey st.mapping j) := by
  unfold moveFile at h
  cases hget : getFileById st id with
  | error e => rw [hget] at h; simp at h
  | ok orig =>
    obtain ⟨hmap, hoid, -, -⟩ := getFileById_ok_inv hget
    rw [hget] at h
    dsimp only at h
    by_cases hsame : orig.folderId = t
    · rw [if_pos hsame] at h
      injection h with h1 h2
      injection h1 with h1
      subst h1; subst h2
      exact ⟨hoid, hmap, fun j _ => rfl⟩
    · rw [if_neg hsame] at h
      cases htf : (match t with
        | some fid =>
          match lookupKey st.mediator fid with
          | some p => Except.ok (folderNameOf p)
          | none => Except.error (RepoError.other "Could not get target folder")
        | none => Except.ok ([] : StoragePath)) with
      | error e => rw [htf] at h; simp at h
      | ok tf =>
        rw [htf] at h
        dsimp only at h
        by_cases hex : fsExists st.fs (tf ++ [orig.name]) = true
        · rw [if_pos hex] at h; simp at h
        · rw [if_neg hex] at h
          cases hup : updatePath
              { st with dirs := tf :: st.dirs,
                        fs := fsRename st.fs orig.storagePath (tf ++ [orig.name]) }
              id (tf ++ [orig.name]) with
          | error e => rw [hup] at h; simp at h
          | ok st3 =>
            rw [hup] at h
            dsimp only at h
            injection h with h1 h2
            injection h1 with h1
            subst h1; subst h2
            have h3 := updatePath_ok_inv hup
            subst h3
            refine ⟨hoid, ?_, ?_⟩
            · show lookupKey (setKey st.mapping id (tf ++ [orig.name])) id
                = some (orig.withFolder t tf).storagePath
              rw [lookupKey_setKey_self]
              rfl
            · intro j hj
              show lookupKey (setKey st.mapping id (tf ++ [orig.name])) j
                = lookupKey st.mapping j
              exact lookupKey_setKey_ne _ _ hj

/-- C5: the id returned by `save` is stable across `move`: the descriptor
returned by a successful move carries the saved id, the mapping row for that
id now holds the moved path, every other mapping row is untouched, and any
subsequent `get` under that id yields a descriptor carrying it. -/
theorem C5_move_preserves_saved_id (st : Store) (name : String)
    (fid : Option String) (ct : String) (content : List Nat)
    (file : File) (st1 : Store) (target : Option String) (file' : File) (st2 : Store)
    (_hsave : saveFileFromBytes st name fid ct content = (.ok file, st1))
    (hmove : moveFile st1 file.id target = (.ok file', st2)) :
    file'.id = file.id ∧
    lookupKey st2.mapping file.id = some file'.storagePath ∧
    (∀ j, j ≠ file.id → lookupKey st2.mapping j = lookupKey st1.mapping j) ∧
    (∀ g, getFileById st2 file.id = .ok g → g.id = file.id) := by
  obtain ⟨h1, h2, h3⟩ := moveFile_ok_inv hmove
  exact ⟨h1, h2, h3, fun g hg => (getFileById_ok_inv hg).2.1⟩

theorem lookupKey_eq_none_iff {β : Type} {m : List (String × β)} {k : String} :
    lookupKey m k = none ↔ k ∉ m.map Prod.fst := by
  induction m with
  | nil => simp [lookupKey]
  | cons kv rest ih =>
    obtain ⟨k0, v0⟩ := kv
    by_cases h : k0 = k
    · subst h
      simp [lookupKey]
    · simp [lookupKey, h, ih, Ne.symm h]

theorem lookupVal_eq_none_iff {β : Type} [DecidableEq β] {m : List (String × β)} {v : β} :
    lookupVal m v = none ↔ v ∉ m.map Prod.snd := by
  induction m with
  | nil => simp [lookupVal]
  | cons kv rest ih =>
    obtain ⟨k0, v0⟩ := kv
    by_cases h : v0 = v
    · subst h
      simp [lookupVal]
    · simp [lookupVal, h, ih, Ne.symm h]

/-- `get_or_create_id` answers the queried path from the (possibly extended)
mapping. -/
theorem getOrCreateId_lookupVal_self (st : Store) (p : StoragePath) :
    lookupVal (getOrCreateId st p).2.mapping p = some (getOrCreateId st p).1 := by
  unfold getOrCreateId
  cases hv : lookupVal st.mapping p with
  | some id => exact hv
  | none => simp [lookupVal]

theorem getOrCreateId_lookupKey_self (st : Store) (p : StoragePath)
    (hwf : mappingWf st.mapping) :
    lookupKey (getOrCreateId st p).2.mapping (getOrCreateId st p).1 = some p := by
  unfold getOrCreateId
  cases hv : lookupVal st.mapping p with
  | some id => exact lookupKey_of_lookupVal hwf hv
  | none => simp [lookupKey]

theorem getOrCreateId_mappingWf (st : Store) (p : StoragePath)
    (hwf : mappingWf st.mapping) (hfr : freshOk st) :
    mappingWf (getOrCreateId st p).2.mapping := by
  unfold getOrCreateId
  cases hv : lookupVal st.mapping p with
  | some id => exact hwf
  | none =>
    refine ⟨?_, ?_⟩
    · simp only [List.map_cons, List.nodup_cons]
      exact ⟨lookupKey_eq_none_iff.mp (hfr st.fresh le_rfl), hwf.1⟩
    · simp only [List.map_cons, List.nodup_cons]
      exact ⟨lookupVal_eq_none_iff.mp hv, hwf.2⟩

theorem getOrCreateId_freshOk (st : Store) (p : StoragePath) (hfr : freshOk st) :
    freshOk (getOrCreateId st p).2 := by
  unfold getOrCreateId
  cases hv : lookupVal st.mapping p with
  | some id => exact hfr
  | none =>
    intro k hk
    dsimp only at hk ⊢
    have hne : freshId st.fresh ≠ freshId k := by
      intro hcontra
      have := freshId_injective hcontra
      omega
    simp only [lookupKey, hne, if_false]
    exact hfr k (by omega)

theorem getOrCreateId_lookupKey_mono (st : Store) (p : StoragePath) (hfr : freshOk st)
    {i : String} {q : StoragePath} (h : lookupKey st.mapping i = some q) :
    lookupKey (getOrCreateId st p).2.mapping i = some q := by
  unfold getOrCreateId
  cases hv : lookupVal st.mapping p with
  | some id => exact h
  | none =>
    have hne : freshId st.fresh ≠ i := by
      intro hcontra
      have h0 := hfr st.fresh le_rfl
      rw [hcontra, h] at h0
      cases h0
    simp only [lookupKey, hne, if_false]
    exact h

theorem getOrCreateId_lookupVal_mono (st : Store) (p : StoragePath)
    {q : StoragePath} {i : String} (h : lookupVal st.mapping q = some i) :
    lookupVal (getOrCreateId st p).2.mapping q = some i := by
  unfold getOrCreateId
  cases hv : lookupVal st.mapping p with
  | some id => exact h
  | none =>
    have hne : p ≠ q := by
      intro hcontra
      subst hcontra
      rw [hv] at h
      cases h
    simp only [lookupVal, hne, if_false]
    exact h

/-- The descriptor `list_files` builds for a directory entry. -/
def mkListFile (e : FsFile) (fid : String) (id : String) : File :=
  { id := id, name := (e.path.getLast?).getD "", storagePath := e.path,
    size := e.content.length, mimeType := mimeFromPath e.path,
    folderId := some fid, createdAt := e.ctime, modifiedAt := e.mtime }

/-- Everything the listing loop guarantees: the non-mapping state is
untouched, well-formedness survives, existing rows survive, and every
returned descriptor's id has a mapping row answering its storage path. -/
theorem listLoop_spec (F : StoragePath) (fid : String) :
    ∀ (entries : List FsFile) (st : Store) (files : List File) (st₁ : Store),
      listLoop st F fid entries = (files, st₁) →
      mappingWf st.mapping → freshOk st →
      st₁.fs = st.fs ∧ st₁.dirs = st.dirs ∧ st₁.mediator = st.mediator ∧
      mappingWf st₁.mapping ∧ freshOk st₁ ∧
      (∀ i q, lookupKey st.mapping i = some q → lookupKey st₁.mapping i = some q) ∧
      (∀ q i, lookupVal st.mapping q = some i → lookupVal st₁.mapping q = some i) ∧
      List.Forall₂ (fun (e : FsFile) (f : File) =>
        f = mkListFile e fid f.id ∧
        lookupKey st₁.mapping f.id = some e.path ∧
        lookupVal st₁.mapping e.path = some f.id) entries files := by
  intro entries
  induction entries with
  | nil =>
    intro st files st₁ h hwf hfr
    unfold listLoop at h
    injection h with h1 h2
    subst h1; subst h2
    exact ⟨rfl, rfl, rfl, hwf, hfr, fun _ _ hh => hh, fun _ _ hh => hh, List.Forall₂.nil⟩
  | cons e rest ih =>
    intro st files st₁ h hwf hfr
    unfold listLoop at h
    cases hg : getOrCreateId st e.path with
    | mk id st' =>
      rw [hg] at h
      dsimp only at h
      cases hrest : listLoop st' F fid rest with
      | mk files' st₂ =>
        rw [hrest] at h
        dsimp only at h
        injection h with h1 h2
        subst h1; subst h2
        have hwf' : mappingWf st'.mapping := by
          have := getOrCreateId_mappingWf st e.path hwf hfr
          rw [hg] at this; exact this
        have hfr' : freshOk st' := by
          have := getOrCreateId_freshOk st e.path hfr
          rw [hg] at this; exact this
        obtain ⟨hfs, hdirs, hmed, hwf₂, hfr₂, hkmono, hvmono, hrel⟩ :=
          ih st' files' st₂ hrest hwf' hfr'
        have hfs' : st'.fs = st.fs := by
          have := getOrCreateId_fs st e.path
          rw [hg] at this; exact this
        have hdirs' : st'.dirs = st.dirs := by
          have := getOrCreateId_dirs st e.path
          rw [hg] at this; exact this
        have hmed' : st'.mediator = st.mediator := by
          have := getOrCreateId_mediator st e.path
          rw [hg] at this; exact this
        have hkey : lookupKey st'.mapping id = some e.path := by
          have := getOrCreateId_lookupKey_self st e.path hwf
          rw [hg] at this; exact this
        have hval : lookupVal st'.mapping e.path = some id := by
          have := getOrCreateId_lookupVal_self st e.path
          rw [hg] at this; exact this
        refine ⟨hfs.trans hfs', hdirs.trans hdirs', hmed.trans hmed',
          hwf₂, hfr₂, ?_, ?_, ?_⟩
        · intro i q hq
          refine hkmono i q ?_
          have := getOrCreateId_lookupKey_mono st e.path hfr hq
          rw [hg] at this; exact this
        · intro q i hq
          refine hvmono q i ?_
          have := getOrCreateId_lookupVal_mono st e.path hq
          rw [hg] at this; exact this
        · refine List.Forall₂.cons ⟨rfl, ?_, ?_⟩ hrel
          · exact hkmono id e.path hkey
          · exact hvmono e.path id hval

/-- When every entry's path is already mapped to the listed id, the listing
loop is a pure replay: it returns the same descriptors and leaves the state
untouched. -/
theorem listLoop_cached (F : StoragePath) (fid : String) :
    ∀ (entries : List FsFile) (st : Store) (files : List File),
      List.Forall₂ (fun (e : FsFile) (f : File) =>
        f = mkListFile e fid f.id ∧ lookupVal st.mapping e.path = some f.id)
        entries files →
      listLoop st F fid entries = (files, st) := by
  intro entries
  induction entries with
  | nil =>
    intro st files h
    cases h
    rfl
  | cons e rest ih =>
    intro st files h
    cases h with
    | @cons _ f _ fs hef hrest =>
      obtain ⟨hmk, hval⟩ := hef
      unfold listLoop
      rw [show getOrCreateId st e.path = (f.id, st) from by unfold getOrCreateId; rw [hval]]
      dsimp only
      rw [ih st fs hrest]
      exact congrArg (fun x => (x :: fs, st)) hmk.symm

theorem forall₂_mem_right {α β : Type} {R : α → β → Prop} :
    ∀ {l₁ : List α} {l₂ : List β}, List.Forall₂ R l₁ l₂ →
      ∀ {b}, b ∈ l₂ → ∃ a, a ∈ l₁ ∧ R a b := by
  intro l₁ l₂ h
  induction h with
  | nil => intro b hb; simp at hb
  | @cons a b l₁' l₂' hR hF ih =>
    intro c hc
    rcases List.mem_cons.mp hc with hcb | hc'
    · subst hcb
      exact ⟨a, List.mem_cons_self _ _, hR⟩
    · obtain ⟨a', ha', hRa'⟩ := ih hc'
      exact ⟨a', List.mem_cons_of_mem _ ha', hRa'⟩

/-- A store with one visible file at the storage root and an EMPTY mapping. -/
def stC2 : Store :=
  { fs := [⟨["a.txt"], [1], 0, 0⟩], dirs := [], mapping := [], persisted := [],
    fresh := 0, now := 0, failRemove := [], mediator := [] }

/-- C2 counterexample: `list(None)` takes the hard-coded development-mode
branch, which mints a FRESH `Uuid::new_v4()` per listed file: the returned id
has no mapping row (`get_path_by_id` fails with `NotFound`), and repeating
the listing on the unchanged directory yields a different id for the same
file name. -/
theorem C2_dev_mode_listing_unmapped_unstable_ids :
    (listFiles stC2 none).1 =
      .ok [{ id := "uuid-0", name := "a.txt", storagePath := ["a.txt"], size := 1,
             mimeType := "application/octet-stream", folderId := none,
             createdAt := 0, modifiedAt := 0 }] ∧
    getPathById (listFiles stC2 none).2 "uuid-0" = .error (.notFound "uuid-0") ∧
    (listFiles (listFiles stC2 none).2 none).1 =
      .ok [{ id := "uuid-1", name := "a.txt", storagePath := ["a.txt"], size := 1,
             mimeType := "application/octet-stream", folderId := none,
             createdAt := 0, modifiedAt := 0 }] :=
  ⟨rfl, rfl, rfl⟩

/-- C2 (amended): for folder listings — `list(Some(folder))` — every returned
descriptor's id has a mapping row: `get_path_by_id(id)` succeeds with the
file's storage path, and repeating the listing on the unchanged store returns
exactly the same descriptors (same ids for the same names) without changing
the store again.  `list(None)` instead takes the development-mode branch and
allocates fresh, unmapped ids (see the counterexample). -/
theorem C2_list_folder_ids_mapped_and_stable (st : Store) (fid : String)
    (files : List File) (st' : Store)
    (hwf : mappingWf st.mapping) (hfr : freshOk st)
    (hlist : listFiles st (some fid) = (.ok files, st')) :
    (∀ f ∈ files, getPathById st' f.id = .ok f.storagePath) ∧
    listFiles st' (some fid) = (.ok files, st') := by
  unfold listFiles at hlist ⊢
  dsimp only at hlist ⊢
  cases hmed : lookupKey st.mediator fid with
  | none =>
    rw [hmed] at hlist
    injection hlist with h1 h2
    injection h1 with h1
    subst h1; subst h2
    rw [hmed]
    exact ⟨fun f hf => absurd hf (List.not_mem_nil f), rfl⟩
  | some p =>
    rw [hmed] at hlist
    dsimp only at hlist
    by_cases hdir : dirExists st (folderNameOf p) = true
    · rw [if_pos hdir] at hlist
      cases hll : listLoop st (folderNameOf p) fid (childFiles st.fs (folderNameOf p)) with
      | mk files0 st₁ =>
        rw [hll] at hlist
        dsimp only at hlist
        injection hlist with h1 h2
        injection h1 with h1
        subst h1
        obtain ⟨hfs, hdirs, hmedeq, hwf₁, hfr₁, hkmono, hvmono, hrel⟩ :=
          listLoop_spec (folderNameOf p) fid _ st files0 st₁ hll hwf hfr
        have hmap' : st'.mapping = st₁.mapping := by
          rw [← h2]
          cases hempty : files0.isEmpty <;> simp [hempty, saveChanges]
        have hmed' : st'.mediator = st.mediator := by
          rw [← h2]
          cases hempty : files0.isEmpty <;> simp [hempty, saveChanges, hmedeq]
        have hdirs' : st'.dirs = st.dirs := by
          rw [← h2]
          cases hempty : files0.isEmpty <;> simp [hempty, saveChanges, hdirs]
        have hfs' : st'.fs = st.fs := by
          rw [← h2]
          cases hempty : files0.isEmpty <;> simp [hempty, saveChanges, hfs]
        constructor
        · intro f hf
          obtain ⟨e, -, hmk, hkey, -⟩ := forall₂_mem_right hrel hf
          have hsp : f.storagePath = e.path := by rw [hmk]; rfl
          unfold getPathById
          rw [hmap', hkey, hsp]
        · rw [show lookupKey st'.mediator fid = some p from by rw [hmed', hmed]]
          dsimp only
          have hdir2 : dirExists st' (folderNameOf p) = true := by
            unfold dirExists at hdir ⊢
            rw [hdirs']
            exact hdir
          rw [if_pos hdir2, hfs']
          have hcached : listLoop st' (folderNameOf p) fid
              (childFiles st.fs (folderNameOf p)) = (files0, st') := by
            apply listLoop_cached
            refine List.Forall₂.imp ?_ hrel
            intro e f hef
            exact ⟨hef.1, by rw [hmap']; exact hef.2.2⟩
          rw [hcached]
          dsimp only
          cases hempty : files0.isEmpty with
          | true => simp only [hempty, if_true]
          | false =>
            simp only [hempty, Bool.false_eq_true, if_false]
            have hsc : saveChanges st' = st' := by
              rw [← h2]
              simp only [hempty, Bool.false_eq_true, if_false]
              rfl
            rw [hsc]
    · rw [if_neg hdir] at hlist
      injection hlist with h1 h2
      injection h1 with h1
      subst h1; subst h2
      rw [hmed]
      dsimp only
      rw [if_neg hdir]
      exact ⟨fun f hf => absurd hf (List.not_mem_nil f), rfl⟩

/-- A store with one file inside the folder `docs` (mediator id `"F"`) and an
empty mapping. -/
def stC2w : Store :=
  { fs := [⟨["docs", "a.txt"], [1], 0, 0⟩], dirs := [["docs"]],
    mapping := [], persisted := [],
    fresh := 0, now := 0, failRemove := [], mediator := [("F", ["docs"])] }

def fileC2w : File :=
  { id := "uuid-0", name := "a.txt", storagePath := ["docs", "a.txt"], size := 1,
    mimeType := "application/octet-stream", folderId := some "F",
    createdAt := 0, modifiedAt := 0 }

/-- C2 witness: the amended theorem applied to a concrete folder listing; all
hypotheses discharged by computation. -/
theorem C2_list_folder_ids_mapped_and_stable_witness :
    (mappingWf stC2w.mapping ∧ freshOk stC2w ∧
     listFiles stC2w (some "F") = (.ok [fileC2w], (listFiles stC2w (some "F")).2)) ∧
    ((∀ f ∈ [fileC2w], getPathById (listFiles stC2w (some "F")).2 f.id = .ok f.storagePath) ∧
     listFiles (listFiles stC2w (some "F")).2 (some "F")
       = (.ok [fileC2w], (listFiles stC2w (some "F")).2)) := by
  have hwf : mappingWf stC2w.mapping := ⟨List.nodup_nil, List.nodup_nil⟩
  have hfr : freshOk stC2w := fun k _ => rfl
  have hlist : listFiles stC2w (some "F")
      = (.ok [fileC2w], (listFiles stC2w (some "F")).2) := rfl
  exact ⟨⟨hwf, hfr, hlist⟩,
    C2_list_folder_ids_mapped_and_stable stC2w "F" [fileC2w]
      (listFiles stC2w (some "F")).2 hwf hfr hlist⟩

/-- A store with an empty filesystem, an empty mapping and the folder `docs`
registered under the mediator id `"F"`. -/
def stC5 : Store :=
  { fs := [], dirs := [["docs"]], mapping := [], persisted := [],
    fresh := 0, now := 0, failRemove := [], mediator := [("F", ["docs"])] }

def fileC5 : File :=
  { id := "uuid-0", name := "x.txt", storagePath := ["x.txt"], size := 1,
    mimeType := "text/plain", folderId := none, createdAt := 0, modifiedAt := 0 }

def fileC5' : File :=
  { id := "uuid-0", name := "x.txt", storagePath := ["docs", "x.txt"], size := 1,
    mimeType := "application/octet-stream", folderId := some "F",
    createdAt := 0, modifiedAt := 0 }

/-- C5 witness: save `x.txt` at the root, then move it into folder `F`; the
theorem applies with both operation hypotheses discharged by computation. -/
theorem C5_move_preserves_saved_id_witness :
    (saveFileFromBytes stC5 "x.txt" none "text/plain" [1]
        = (.ok fileC5, (saveFileFromBytes stC5 "x.txt" none "text/plain" [1]).2) ∧
     moveFile (saveFileFromBytes stC5 "x.txt" none "text/plain" [1]).2 fileC5.id (some "F")
        = (.ok fileC5',
           (moveFile (saveFileFromBytes stC5 "x.txt" none "text/plain" [1]).2
             fileC5.id (some "F")).2)) ∧
    (fileC5'.id = fileC5.id ∧
     lookupKey (moveFile (saveFileFromBytes stC5 "x.txt" none "text/plain" [1]).2
        fileC5.id (some "F")).2.mapping fileC5.id = some fileC5'.storagePath) := by
  refine ⟨⟨rfl, rfl⟩, ?_⟩
  have h := C5_move_preserves_saved_id stC5 "x.txt" none "text/plain" [1]
    fileC5 (saveFileFromBytes stC5 "x.txt" none "text/plain" [1]).2 (some "F")
    fileC5' (moveFile (saveFileFromBytes stC5 "x.txt" none "text/plain" [1]).2
      fileC5.id (some "F")).2 rfl rfl
  exact ⟨h.1, h.2.1⟩

/-! ### C1: unique-name resolution under collisions -/

theorem append_singleton_inj {F : StoragePath} {a b : String}
    (h : F ++ [a] = F ++ [b]) : a = b := by
  have h' := List.append_cancel_left h
  injection h'

theorem candidateName_pos (name : String) {j : Nat} (h : 0 < j) :
    candidateName name j = mkSuffixName name j := by
  match j, h with
  | j + 1, _ => rfl

/-- The collision loop started at `counter = c` returns the first free
suffixed name: if the candidates `c, …, c+k-1` are occupied and `c+k` is
free, it answers `mkSuffixName name (c+k)` (given enough fuel). -/
theorem resolveLoop_spec (occ : StoragePath → Bool) (folder : StoragePath)
    (name : String) :
    ∀ (k c fuel : Nat),
      (∀ j, c ≤ j → j < c + k → occ (folder ++ [mkSuffixName name j]) = true) →
      occ (folder ++ [mkSuffixName name (c + k)]) = false →
      k < fuel →
      resolveLoop occ folder name c fuel = some (mkSuffixName name (c + k)) := by
  intro k
  induction k with
  | zero =>
    intro c fuel hocc hfree hfuel
    match fuel, hfuel with
    | f + 1, _ =>
      unfold resolveLoop
      simp only [Nat.add_zero] at hfree
      simp [hfree]
  | succ k ih =>
    intro c fuel hocc hfree hfuel
    match fuel, hfuel with
    | f + 1, hf =>
      unfold resolveLoop
      have hc : occ (folder ++ [mkSuffixName name c]) = true :=
        hocc c le_rfl (by omega)
      simp only [hc, if_true]
      rw [show c + (k + 1) = (c + 1) + k from by omega]
      exact ih (c + 1) f
        (fun j hj1 hj2 => hocc j (by omega) (by omega))
        (by rw [show (c + 1) + k = c + (k + 1) from by omega]; exact hfree)
        (by omega)

/-- The unique-name resolution returns the first free candidate: the
requested name when its path is free, else the first free `stem_n.ext`. -/
theorem resolveUniqueName_first_free (occ : StoragePath → Bool)
    (folder : StoragePath) (name : String) (fuel k : Nat)
    (hocc : ∀ j, j < k → occ (folder ++ [candidateName name j]) = true)
    (hfree : occ (folder ++ [candidateName name k]) = false)
    (hfuel : k ≤ fuel) :
    resolveUniqueName occ folder name fuel = some (candidateName name k) := by
  unfold resolveUniqueName
  match k with
  | 0 =>
    simp only [candidateName] at hfree
    simp [hfree, candidateName]
  | k + 1 =>
    have h0 : occ (folder ++ [name]) = true := hocc 0 (Nat.succ_pos k)
    simp only [h0, if_true]
    rw [candidateName_pos name (Nat.succ_pos k)]
    have hgoal := resolveLoop_spec occ folder name k 1 fuel
      (fun j hj1 hj2 => by
        have hx := hocc j (by omega)
        rwa [candidateName_pos name (by omega : 0 < j)] at hx)
      (by
        rw [show 1 + k = k + 1 from Nat.add_comm 1 k]
        rwa [candidateName_pos name (Nat.succ_pos k)] at hfree)
      (by omega)
    rw [show 1 + k = k + 1 from Nat.add_comm 1 k] at hgoal
    exact hgoal

theorem fsExists_mem {fs : List FsFile} {p : StoragePath}
    (h : fsExists fs p = true) : p ∈ fs.map (fun f => f.path) := by
  induction fs with
  | nil => simp [fsExists, fsGet] at h
  | cons g rest ih =>
    unfold fsExists fsGet at h
    split at h
    · next heq => simp [heq.symm]
    · next => exact List.mem_cons_of_mem _ (ih h)

/-- If the first `k` candidate paths are all occupied, the filesystem holds
at least `k` files (the candidates are pairwise distinct). -/
theorem occupied_candidates_le_length (fs : List FsFile) (F : StoragePath)
    (name : String) (k : Nat)
    (hocc : ∀ j, j < k → fsExists fs (F ++ [candidateName name j]) = true) :
    k ≤ fs.length := by
  have hnd : ((List.range k).map (fun j => F ++ [candidateName name j])).Nodup := by
    refine List.Nodup.map ?_ (List.nodup_range k)
    intro i j hij
    exact candidateName_injective name (append_singleton_inj hij)
  have hsub : ((List.range k).map (fun j => F ++ [candidateName name j]))
      ⊆ fs.map (fun f => f.path) := by
    intro x hx
    simp only [List.mem_map, List.mem_range] at hx
    obtain ⟨j, hj, hxe⟩ := hx
    subst hxe
    exact fsExists_mem (hocc j hj)
  have hlen := (hnd.subperm hsub).length_le
  simpa using hlen

/-- Full characterisation of a successful save under the collision
hypotheses: the stored name is the first free candidate, the file lands at
the folder path joined with that name, the mediator is untouched, and the
filesystem afterwards holds exactly the old files plus the new path. -/
theorem saveFileFromBytes_spec (st : Store) (name : String)
    (folderId : Option String) (ct : String) (content : List Nat) (k : Nat)
    (hocc : ∀ j, j < k → fsExists st.fs (saveFolderPath st.mediator folderId
      ++ [candidateName name j]) = true)
    (hfree : fsExists st.fs (saveFolderPath st.mediator folderId
      ++ [candidateName name k]) = false) :
    ∃ file st', saveFileFromBytes st name folderId ct content = (.ok file, st') ∧
      file.name = candidateName name k ∧
      file.storagePath = saveFolderPath st.mediator folderId ++ [candidateName name k] ∧
      st'.mediator = st.mediator ∧
      (∀ q, fsExists st'.fs q = true ↔
        (q = saveFolderPath st.mediator folderId ++ [candidateName name k] ∨
         fsExists st.fs q = true)) := by
  have hk : k ≤ st.fs.length :=
    occupied_candidates_le_length st.fs (saveFolderPath st.mediator folderId) name k hocc
  have hres := resolveUniqueName_first_free (fun p => fsExists st.fs p)
    (saveFolderPath st.mediator folderId) name (st.fs.length + 1) k hocc hfree (by omega)
  unfold saveFileFromBytes
  dsimp only
  rw [hres]
  dsimp only
  refine ⟨_, _, rfl, rfl, rfl, ?_, ?_⟩
  · rw [show ∀ s : Store, (saveChanges s).mediator = s.mediator from fun _ => rfl]
    rw [getOrCreateId_mediator]
  · intro q
    rw [show ∀ s : Store, (saveChanges s).fs = s.fs from fun _ => rfl]
    rw [getOrCreateId_fs]
    exact fsExists_fsSet content st.now

/-- `N` consecutive `save` calls with the same arguments, collecting the
stored names in order. -/
def saveSeq (name : String) (folderId : Option String) (ct : String)
    (content : List Nat) : Nat → Store → List String × Store
  | 0, st => ([], st)
  | n + 1, st =>
    match saveFileFromBytes st name folderId ct content with
    | (.ok f, st') =>
      let (rest, st'') := saveSeq name folderId ct content n st'
      (f.name :: rest, st'')
    | (.error _, st') => ([], st')

/-- Iteration invariant for `saveSeq`: starting from a store where the
candidates below `i` are occupied and the next `m` are free, the `m` saves
store exactly the candidate names `i, …, i+m-1` in order. -/
theorem saveSeq_names (name : String) (folderId : Option String) (ct : String)
    (content : List Nat) (F : StoragePath) :
    ∀ (m i : Nat) (st : Store),
      saveFolderPath st.mediator folderId = F →
      (∀ j, j < i → fsExists st.fs (F ++ [candidateName name j]) = true) →
      (∀ j, i ≤ j → j < i + m → fsExists st.fs (F ++ [candidateName name j]) = false) →
      (saveSeq name folderId ct content m st).1 =
        (List.range' i m).map (candidateName name) := by
  intro m
  induction m with
  | zero => intro i st _ _ _; rfl
  | succ m ih =>
    intro i st hF hocc hfree
    have hocc' : ∀ j, j < i → fsExists st.fs (saveFolderPath st.mediator folderId
        ++ [candidateName name j]) = true := by
      intro j hj; rw [hF]; exact hocc j hj
    have hfree' : fsExists st.fs (saveFolderPath st.mediator folderId
        ++ [candidateName name i]) = false := by
      rw [hF]; exact hfree i le_rfl (by omega)
    obtain ⟨file, st', hsave, hname, hpath, hmed, hfs⟩ :=
      saveFileFromBytes_spec st name folderId ct content i hocc' hfree'
    unfold saveSeq
    rw [hsave]
    dsimp only
    cases hseq : saveSeq name folderId ct content m st' with
    | mk rest st'' =>
      dsimp only
      have hrest : rest = (List.range' (i + 1) m).map (candidateName name) := by
        have := ih (i + 1) st'
          (by rw [hmed, hF])
          (by
            intro j hj
            rcases Nat.lt_succ_iff_lt_or_eq.mp hj with hj' | hj'
            · exact (hfs _).mpr (Or.inr (hocc j hj'))
            · subst hj'
              exact (hfs _).mpr (Or.inl (by rw [hF])))
          (by
            intro j hj1 hj2
            cases hq : fsExists st'.fs (F ++ [candidateName name j]) with
            | false => rfl
            | true =>
              have hq' : fsExists st'.fs (saveFolderPath st.mediator folderId
                  ++ [candidateName name j]) = true := by
                rw [hF]; exact hq
              rcases (hfs _).mp hq' with heq | hold
              · have := candidateName_injective name (append_singleton_inj heq)
                omega
              · rw [hF] at hold
                rw [hfree j (by omega) (by omega)] at hold
                cases hold)
        rw [hseq] at this
        exact this
      rw [hrest, hname]
      rfl

/-- A store with an empty filesystem and an empty mapping. -/
def stC1 : Store :=
  { fs := [], dirs := [], mapping := [], persisted := [],
    fresh := 0, now := 0, failRemove := [], mediator := [] }

/-- A store already holding `a.png` at the root. -/
def stC1b : Store :=
  { fs := [⟨["a.png"], [9], 0, 0⟩], dirs := [],
    mapping := [("uuid-0", ["a.png"])], persisted := [("uuid-0", ["a.png"])],
    fresh := 1, now := 0, failRemove := [], mediator := [] }

/-- C1: (first part) a save whose folder already holds the candidates below
`k` but not candidate `k` stores its file under the name `candidateName name
k` — the first name in the sequence `name, stem_1.ext, stem_2.ext, …` whose
path does not yet exist; (second part) `N` saves with identical arguments
starting from a store free of all candidates produce exactly the names
`name, stem_1.ext, …, stem_{N-1}.ext` in order. -/
theorem C1_save_collision_suffixing :
    (∀ (st : Store) (name : String) (folderId : Option String) (ct : String)
        (content : List Nat) (k : Nat),
      (∀ j, j < k → fsExists st.fs (saveFolderPath st.mediator folderId
        ++ [candidateName name j]) = true) →
      fsExists st.fs (saveFolderPath st.mediator folderId
        ++ [candidateName name k]) = false →
      ∃ file st', saveFileFromBytes st name folderId ct content = (.ok file, st') ∧
        file.name = candidateName name k ∧
        file.storagePath = saveFolderPath st.mediator folderId
          ++ [candidateName name k]) ∧
    (∀ (st : Store) (name : String) (folderId : Option String) (ct : String)
        (content : List Nat) (N : Nat),
      (∀ j, j < N → fsExists st.fs (saveFolderPath st.mediator folderId
        ++ [candidateName name j]) = false) →
      (saveSeq name folderId ct content N st).1 =
        (List.range N).map (candidateName name)) := by
  constructor
  · intro st name folderId ct content k hocc hfree
    obtain ⟨file, st', hsave, hname, hpath, -, -⟩ :=
      saveFileFromBytes_spec st name folderId ct content k hocc hfree
    exact ⟨file, st', hsave, hname, hpath⟩
  · intro st name folderId ct content N hfree
    rw [List.range_eq_range']
    exact saveSeq_names name folderId ct content
      (saveFolderPath st.mediator folderId) N 0 st rfl
      (fun j hj => absurd hj (Nat.not_lt_zero j))
      (fun j _ hj => hfree j (by omega))

/-- C1 witness: three saves of `a.png` into the empty store produce the names
`a.png`, `a_1.png`, `a_2.png` in order, and a single save into a store
already holding `a.png` stores the first free candidate `a_1.png`. -/
theorem C1_save_collision_suffixing_witness :
    ((∀ j, j < 3 → fsExists stC1.fs (saveFolderPath stC1.mediator none
        ++ [candidateName "a.png" j]) = false) ∧
     (saveSeq "a.png" none "image/png" [1] 3 stC1).1 =
       (List.range 3).map (candidateName "a.png") ∧
     (List.range 3).map (candidateName "a.png") = ["a.png", "a_1.png", "a_2.png"]) ∧
    ((∀ j, j < 1 → fsExists stC1b.fs (saveFolderPath stC1b.mediator none
        ++ [candidateName "a.png" j]) = true) ∧
     fsExists stC1b.fs (saveFolderPath stC1b.mediator none
        ++ [candidateName "a.png" 1]) = false ∧
     (∃ file st', saveFileFromBytes stC1b "a.png" none "image/png" [2]
          = (.ok file, st') ∧
        file.name = candidateName "a.png" 1 ∧
        file.storagePath = saveFolderPath stC1b.mediator none
          ++ [candidateName "a.png" 1])) := by
  have hocc1 : ∀ j, j < 1 → fsExists stC1b.fs (saveFolderPath stC1b.mediator none
      ++ [candidateName "a.png" j]) = true := by
    intro j hj
    have hj0 : j = 0 := Nat.lt_one_iff.mp hj
    subst hj0
    rfl
  refine ⟨⟨fun j _ => rfl, ?_, by rfl⟩, hocc1, rfl, ?_⟩
  · exact C1_save_collision_suffixing.2 stC1 "a.png" none "image/png" [1] 3
      (fun j _ => rfl)
  · exact C1_save_collision_suffixing.1 stC1b "a.png" none "image/png" [2] 1
      hocc1 rfl

end AoXCloud
